import Mathlib

/-!
AC_Gimbal: single-axis (tilt) camera-mount controller

A shallow embedding of `libraries/AC_Gimbal/AC_Gimbal.cpp`.

Conventions of the embedding

* Machine integers are `Int`.  Signed arithmetic is evaluated the way the
  32-bit targets evaluate it: `int16_t` operands are promoted to a 32-bit
  `int`, and every arithmetic result is reduced to the signed 32-bit range
  (two's complement wrap-around), see `wrap32`.
* `/` on C integers truncates toward zero: `Int.tdiv`.
* A division by zero has no defined result; `angle_input` returns `none` there.
* `_tilt_angle` holds an integer number of centidegrees; the conversions of
  integers at the assignments to it and at the call of `move_servo` are the
  identity.
* Floating-point values are elements of an arbitrary type `F`; the
  floating-point computations of `calc_gimbal_ROI` and `get_ROI_from_gimbal` are
  parameters of the model (`Geometry`, `Projection`), so that the state machine
  does not depend on them.
* For the numeric properties of the tracking geometry the parameters are
  instantiated over the real numbers (`real_geometry`, `real_projection`): every
  floating-point operation is replaced by the exact operation, and the computed
  angle is truncated toward zero when it is stored in `_tilt_angle`.  Rounding
  errors of the floating-point operations are not part of the model.
* `update_gimbal` returns the new member variables together with the arguments
  of its call of `RC_Channel_aux::move_servo`, the actuator output.
-/

namespace AC_Gimbal

/-! ## Machine integers -/

/-- Reduction of an integer to the signed 32-bit range (two's complement). -/
def wrap32 (x : Int) : Int := (x + 2147483648) % 4294967296 - 2147483648

/-- Reduction of an integer to the signed 8-bit range: the cast `(int8_t)x`. -/
def wrap8 (x : Int) : Int := (x + 128) % 256 - 128

/-- The value is representable as `int16_t`. -/
def IsInt16 (x : Int) : Prop := -32768 ≤ x ∧ x ≤ 32767

/-- The value is representable as `int32_t`. -/
def IsInt32 (x : Int) : Prop := -2147483648 ≤ x ∧ x ≤ 2147483647

instance (x : Int) : Decidable (IsInt16 x) := by unfold IsInt16; infer_instance

instance (x : Int) : Decidable (IsInt32 x) := by unfold IsInt32; infer_instance

/-! ## Constants declared outside `AC_Gimbal.cpp` -/

/-- Modelled from the spec: the enumerator `RC_TARGETING` of `enum MAV_MOUNT_MODE`.
The enumeration is declared in the MAVLink headers, outside this library; the
numeric value is the one of the MAVLink common message set. -/
def MAV_MOUNT_MODE_RC_TARGETING : Int := 3

/-- Modelled from the spec: the enumerator `GPS_POINT` of `enum MAV_MOUNT_MODE`
(declared in the MAVLink headers, outside this library). -/
def MAV_MOUNT_MODE_GPS_POINT : Int := 4

/-- Modelled from the spec: `AP_GPS::GPS_OK_FIX_2D`, the lowest fix status that
counts as "a 2D-or-better position fix" (declared in `AP_GPS.h`, outside this
library). -/
def GPS_OK_FIX_2D : Int := 2

/-! ## Data model -/

/-- A 3D vector of floating-point values (`Vector3f`). -/
structure Vector3f (F : Type) where
  x : F
  y : F
  z : F
  deriving DecidableEq

/-- What the controller reads from an `RC_Channel`: the raw input, the calibrated
end points, and the result of `get_reverse()`. -/
structure RC_Channel where
  radio_in : Int
  radio_min : Int
  radio_max : Int
  get_reverse : Bool
  deriving DecidableEq

/-- The member variables of `AC_Gimbal`. -/
structure Gimbal (F : Type) where
  /-- Parameter `RC_IN_TILT` (`AP_Int8`): 0 for none, else the RC channel number. -/
  _tilt_rc_in : Int
  /-- Parameter `ANGMIN_TIL` (`AP_Int16`), centidegrees. -/
  _tilt_angle_min : Int
  /-- Parameter `ANGMAX_TIL` (`AP_Int16`), centidegrees. -/
  _tilt_angle_max : Int
  /-- Current mode, stored in 8 bits. -/
  _mount_mode : Int
  /-- Modelled from the spec: the current tilt command, a signed integer number
  of centidegrees (the member is declared in `AC_Gimbal.h`). -/
  _tilt_angle : Int
  /-- Target point (region of interest). -/
  _roi_WP : Vector3f F
  deriving DecidableEq

/-- The collaborators read during one call of `update_gimbal` or of
`get_ROI_from_gimbal`. -/
structure Env (F : Type) where
  /-- The function `RC_Channel::rc_channel(i)`: `none` is the null pointer. -/
  rc_channel : Int → Option RC_Channel
  /-- The value of `_ahrs.get_gps().status()`. -/
  gps_status : Int
  /-- The value of `_inav.get_position()`. -/
  position : Vector3f F
  /-- The value of `_ahrs.cos_yaw()`. -/
  cos_yaw : F
  /-- The value of `_ahrs.sin_yaw()`. -/
  sin_yaw : F

/-- The floating-point computation of `calc_gimbal_ROI`, as a function of the
vehicle position and the target point: the tilt angle it stores. -/
structure Geometry (F : Type) where
  tilt_from_ROI : Vector3f F → Vector3f F → Int

/-- The floating-point operations of `get_ROI_from_gimbal`. -/
structure Projection (F : Type) where
  /-- The floating-point value `0`. -/
  zero : F
  /-- Floating-point addition. -/
  add : F → F → F
  /-- Floating-point multiplication. -/
  mul : F → F → F
  /-- The value of `(1/tan(constrain_float(_tilt_angle, 500, 8000) * .000174533f)) * z`
  as a function of `_tilt_angle` and `z`. -/
  distance : Int → F → F

/-- The servo functions of `RC_Channel_aux`; only the tilt axis is used. -/
inductive Aux_servo_function_t where
  | k_mount_tilt
  deriving DecidableEq

/-- The arguments of one call of `RC_Channel_aux::move_servo`. -/
structure ServoCommand where
  function_type : Aux_servo_function_t
  value : Int
  angle_min : Int
  angle_max : Int
  deriving DecidableEq

/-! ## Operations -/

/-- The macro `rc_ch(i)`, which is `RC_Channel::rc_channel(i-1)`. -/
def rc_ch {F : Type} (env : Env F) (i : Int) : Option RC_Channel :=
  env.rc_channel (i - 1)

/-- The function `AC_Gimbal::angle_input`:
`(rev ? -1 : 1) * (radio_in - radio_min) * (int32_t)(angle_max - angle_min)
   / (radio_max - radio_min) + (rev ? angle_max : angle_min)`,
evaluated left to right in signed 32-bit arithmetic. -/
def angle_input (rc : RC_Channel) (angle_min angle_max : Int) : Option Int :=
  let sign : Int := if rc.get_reverse then -1 else 1
  let delta := wrap32 (rc.radio_in - rc.radio_min)
  let signed := wrap32 (sign * delta)
  let span := wrap32 (angle_max - angle_min)
  let product := wrap32 (signed * span)
  let divisor := wrap32 (rc.radio_max - rc.radio_min)
  if divisor = 0 then none
  else
    let quotient := wrap32 (Int.tdiv product divisor)
    some (wrap32 (quotient + (if rc.get_reverse then angle_max else angle_min)))

/-- The function `AC_Gimbal::calc_gimbal_ROI`: stores the tilt angle computed
from the current position and the target point. -/
def calc_gimbal_ROI {F : Type} (geo : Geometry F) (env : Env F) (g : Gimbal F) : Gimbal F :=
  { g with _tilt_angle := geo.tilt_from_ROI env.position g._roi_WP }

/-- The switch statement of `AC_Gimbal::update_gimbal`: the member variables after
the branch logic, `none` when the branch has no defined result. -/
def update_branch {F : Type} (geo : Geometry F) (env : Env F) (g : Gimbal F) :
    Option (Gimbal F) :=
  if g._mount_mode = MAV_MOUNT_MODE_RC_TARGETING then
    if g._tilt_rc_in ≠ 0 then
      match rc_ch env g._tilt_rc_in with
      | some rc =>
        (angle_input rc g._tilt_angle_min g._tilt_angle_max).map
          (fun a => { g with _tilt_angle := a })
      | none => some { g with _tilt_angle := 8000 }
    else some { g with _tilt_angle := 8000 }
  else if g._mount_mode = MAV_MOUNT_MODE_GPS_POINT then
    if GPS_OK_FIX_2D ≤ env.gps_status then some (calc_gimbal_ROI geo env g)
    else some g
  else some g

/-- The function `AC_Gimbal::update_gimbal`: the branch logic followed by
`move_servo(k_mount_tilt, _tilt_angle, 0, 9000)`.  The result is the new
member variables and the arguments handed to `move_servo`. -/
def update_gimbal {F : Type} (geo : Geometry F) (env : Env F) (g : Gimbal F) :
    Option (Gimbal F × ServoCommand) :=
  (update_branch geo env g).map
    (fun g1 => (g1, ⟨Aux_servo_function_t.k_mount_tilt, g1._tilt_angle, 0, 9000⟩))

/-- The function `AC_Gimbal::set_mode`; the argument is the integer value of the
requested enumerator. -/
def set_mode {F : Type} (g : Gimbal F) (mode : Int) : Gimbal F :=
  let g1 := { g with _mount_mode := wrap8 mode }
  if g1._mount_mode ≠ MAV_MOUNT_MODE_GPS_POINT then
    { g1 with _mount_mode := MAV_MOUNT_MODE_RC_TARGETING }
  else g1

/-- The function `AC_Gimbal::set_ROI`. -/
def set_ROI {F : Type} (g : Gimbal F) (roi_WP : Vector3f F) : Gimbal F :=
  set_mode { g with _roi_WP := roi_WP } MAV_MOUNT_MODE_GPS_POINT

/-- Consecutive calls of `update_gimbal`, one per control-loop tick; each tick
reads its own environment.  The result is the member variables after the last
tick and the commands handed to `move_servo`, in order. -/
def update_ticks {F : Type} (geo : Geometry F) :
    List (Env F) → Gimbal F → Option (Gimbal F × List ServoCommand)
  | [], g => some (g, [])
  | env :: envs, g =>
    match update_gimbal geo env g with
    | none => none
    | some (g1, cmd) =>
      match update_ticks geo envs g1 with
      | none => none
      | some (g2, cmds) => some (g2, cmd :: cmds)

/-- The function `AC_Gimbal::get_ROI_from_gimbal`: it writes the three
components of `_roi_WP` and returns `_roi_WP`.  The result is the new member
variables and the returned vector. -/
def get_ROI_from_gimbal {F : Type} (prj : Projection F) (env : Env F) (g : Gimbal F) :
    Gimbal F × Vector3f F :=
  let position := env.position
  let distance := prj.distance g._tilt_angle position.z
  let g1 := { g with _roi_WP :=
    ⟨prj.add position.x (prj.mul env.cos_yaw distance),
     prj.add position.y (prj.mul env.sin_yaw distance),
     prj.zero⟩ }
  (g1, g1._roi_WP)

set_option linter.dupNamespace false in
/-- The constructor `AC_Gimbal::AC_Gimbal`: the parameters take the defaults of
`var_info` and the mode is `RC_TARGETING`.  The constructor assigns neither
`_tilt_angle` nor `_roi_WP`; their initial values are arguments. -/
def AC_Gimbal {F : Type} (tilt_angle : Int) (roi_WP : Vector3f F) : Gimbal F :=
  { _tilt_rc_in := 0
    _tilt_angle_min := -4500
    _tilt_angle_max := 4500
    _mount_mode := MAV_MOUNT_MODE_RC_TARGETING
    _tilt_angle := tilt_angle
    _roi_WP := roi_WP }

/-! ## The controller as a state machine -/

/-- The operations that the controller offers to its callers. -/
inductive Operation (F : Type) where
  /-- A call of `update_gimbal`, with the collaborators it reads. -/
  | update (env : Env F)
  /-- A call of `set_mode` with the requested mode value. -/
  | mode_select (mode : Int)
  /-- A call of `set_ROI` with the target point. -/
  | set_target_point (p : Vector3f F)
  /-- A call of `get_ROI_from_gimbal`, with the collaborators it reads. -/
  | derive_target_point (env : Env F)

/-- One operation on the controller: the member variables afterwards, `none`
when the operation has no defined result. -/
def step {F : Type} (geo : Geometry F) (prj : Projection F) :
    Operation F → Gimbal F → Option (Gimbal F)
  | Operation.update env, g => (update_gimbal geo env g).map Prod.fst
  | Operation.mode_select mode, g => some (set_mode g mode)
  | Operation.set_target_point p, g => some (set_ROI g p)
  | Operation.derive_target_point env, g => some (get_ROI_from_gimbal prj env g).1

/-- A finite sequence of operations, from left to right. -/
def run {F : Type} (geo : Geometry F) (prj : Projection F) :
    List (Operation F) → Gimbal F → Option (Gimbal F)
  | [], g => some g
  | op :: ops, g =>
    match step geo prj op g with
    | none => none
    | some g1 => run geo prj ops g1

/-- The condition under which the switch statement of `update_gimbal` takes its
`default` branch: the mode is neither of the two case labels. -/
def takes_default_branch {F : Type} (g : Gimbal F) : Prop :=
  g._mount_mode ≠ MAV_MOUNT_MODE_RC_TARGETING ∧ g._mount_mode ≠ MAV_MOUNT_MODE_GPS_POINT

/-! ## The tracking geometry over the real numbers

The floating-point computations of `calc_gimbal_ROI` and `get_ROI_from_gimbal`,
with every floating-point operation replaced by the operation on real numbers
that it approximates. -/

/-- Modelled from the spec: `constrain_float(v, lo, hi)`, the clamp of a value
into `[lo, hi]` (defined in `AP_Math`, outside this library). -/
noncomputable def constrain_float (v lo hi : ℝ) : ℝ :=
  if v < lo then lo else if hi < v then hi else v

/-- Modelled from the spec: `safe_sqrt`, the non-negative square root (defined in
`AP_Math`, outside this library). -/
noncomputable def safe_sqrt (v : ℝ) : ℝ := Real.sqrt v

/-- Modelled from the spec: `fast_atan2(y, x)`, the two-argument arc tangent
"atan2" (defined in `AP_Math`, outside this library). -/
noncomputable def fast_atan2 (y x : ℝ) : ℝ :=
  if 0 < x then Real.arctan (y / x)
  else if x < 0 then
    if 0 ≤ y then Real.arctan (y / x) + Real.pi else Real.arctan (y / x) - Real.pi
  else if 0 < y then Real.pi / 2
  else if y < 0 then -(Real.pi / 2)
  else 0

/-- Modelled from the spec: the macro `RadiansToCentiDegrees`, "× 100 × 180/π"
(defined in `AP_Math`, outside this library). -/
noncomputable def RadiansToCentiDegrees (rad : ℝ) : ℝ := rad * 100 * 180 / Real.pi

/-- The conversion of a floating-point value to an integer: truncation toward
zero. -/
noncomputable def float_to_int (v : ℝ) : Int := if 0 ≤ v then ⌊v⌋ else ⌈v⌉

/-- The computation of `calc_gimbal_ROI` over the real numbers: the angle in
centidegrees before it is stored. -/
noncomputable def calc_gimbal_ROI_angle (position roi_WP : Vector3f ℝ) : ℝ :=
  let deltaX := position.x - roi_WP.x
  let deltaY := position.y - roi_WP.y
  let deltaZ := position.z - roi_WP.z
  let wp_distance := safe_sqrt (deltaX * deltaX + deltaY * deltaY)
  let tilt_angle := fast_atan2 wp_distance deltaZ
  let tilt_angle := constrain_float tilt_angle 0.01 1.571
  RadiansToCentiDegrees tilt_angle

/-- The geometry of `calc_gimbal_ROI` over the real numbers. -/
noncomputable def real_geometry : Geometry ℝ :=
  ⟨fun position roi_WP => float_to_int (calc_gimbal_ROI_angle position roi_WP)⟩

/-- The floating-point operations of `get_ROI_from_gimbal` over the real
numbers. -/
noncomputable def real_projection : Projection ℝ :=
  { zero := 0
    add := fun a b => a + b
    mul := fun a b => a * b
    distance := fun tilt_angle z =>
      let gimbal_angle := constrain_float (tilt_angle : ℝ) 500 8000
      (1 / Real.tan (gimbal_angle * 0.000174533)) * z }

/-- The horizontal distance between two points. -/
noncomputable def horizontal_distance (a b : Vector3f ℝ) : ℝ :=
  Real.sqrt ((a.x - b.x) * (a.x - b.x) + (a.y - b.y) * (a.y - b.y))

/-- The round trip of the specification: the target point `p` is set, the tilt
angle toward it is computed from the position (`calc_gimbal_ROI`), and a target
point is derived back from that tilt angle (`get_ROI_from_gimbal`). -/
noncomputable def roundtrip (env : Env ℝ) (g : Gimbal ℝ) (p : Vector3f ℝ) : Vector3f ℝ :=
  (get_ROI_from_gimbal real_projection env
    (calc_gimbal_ROI real_geometry env (set_ROI g p))).2

/-- The vehicle at the height 100 above the origin, heading along the first
axis. -/
noncomputable def roundtrip_env : Env ℝ :=
  { rc_channel := fun _ => none
    gps_status := 3
    position := ⟨0, 0, 100⟩
    cos_yaw := 1
    sin_yaw := 0 }

/-- A ground target at the horizontal distance 120 from `roundtrip_env`, straight
ahead. -/
noncomputable def roundtrip_target : Vector3f ℝ := ⟨120, 0, 0⟩

/-! ## Sample configurations -/

/-- An environment in which RC channel 6 (index 5) is the only available
channel, with the given GPS status. -/
def sample_env (rc : RC_Channel) (status : Int) : Env Int :=
  { rc_channel := fun i => if i = 5 then some rc else none
    gps_status := status
    position := ⟨0, 0, -1000⟩
    cos_yaw := 1
    sin_yaw := 0 }

/-- A geometry that always computes 3000 centidegrees. -/
def sample_geometry : Geometry Int := ⟨fun _ _ => 3000⟩

/-- A projection over the integers in which the distance is the height. -/
def sample_projection : Projection Int := ⟨0, fun a b => a + b, fun a b => a * b, fun _ z => z⟩

/-- A controller with the given mode, selector and angle limits, holding the
tilt angle 2000 and the target point at the origin. -/
def sample_gimbal (mode tilt_rc_in angle_min angle_max : Int) : Gimbal Int :=
  ⟨tilt_rc_in, angle_min, angle_max, mode, 2000, ⟨0, 0, 0⟩⟩

/-! ## Specification-side definitions -/

/-- Every intermediate result of `angle_input` is representable as a signed
32-bit integer: the evaluation meets no overflow. -/
def NoOverflow32 (rc : RC_Channel) (angle_min angle_max : Int) : Prop :=
  let sign : Int := if rc.get_reverse then -1 else 1
  let product := sign * (rc.radio_in - rc.radio_min) * (angle_max - angle_min)
  let quotient := Int.tdiv product (rc.radio_max - rc.radio_min)
  IsInt32 (rc.radio_in - rc.radio_min) ∧
  IsInt32 (sign * (rc.radio_in - rc.radio_min)) ∧
  IsInt32 (angle_max - angle_min) ∧
  IsInt32 product ∧
  IsInt32 (rc.radio_max - rc.radio_min) ∧
  IsInt32 quotient ∧
  IsInt32 (quotient + (if rc.get_reverse then angle_max else angle_min))

/-- The scaled term of the specification,
`(raw - radio_min) * (angle_max - angle_min) / (radio_max - radio_min)`,
over the unbounded integers with truncating division. -/
def scaled_term (raw radio_min radio_max angle_min angle_max : Int) : Int :=
  Int.tdiv ((raw - radio_min) * (angle_max - angle_min)) (radio_max - radio_min)

/-- The clamp of a value into `[lo, hi]` (the specification's "clamp"). -/
def clamp (v lo hi : Int) : Int := if v < lo then lo else if hi < v then hi else v

instance (rc : RC_Channel) (angle_min angle_max : Int) :
    Decidable (NoOverflow32 rc angle_min angle_max) := by
  unfold NoOverflow32; infer_instance

/-! ## Auxiliary lemmas -/

theorem wrap32_eq_self {x : Int} (h : IsInt32 x) : wrap32 x = x := by
  unfold wrap32; unfold IsInt32 at h; omega

theorem wrap8_eq_self {x : Int} (h : -128 ≤ x ∧ x ≤ 127) : wrap8 x = x := by
  unfold wrap8; omega

theorem isInt32_of_isInt16 {x : Int} (h : IsInt16 x) : IsInt32 x := by
  unfold IsInt16 at h; unfold IsInt32; omega

theorem isInt32_sub_of_isInt16 {x y : Int} (hx : IsInt16 x) (hy : IsInt16 y) :
    IsInt32 (x - y) := by
  unfold IsInt16 at hx hy; unfold IsInt32; omega

/-- Without overflow, `angle_input` returns the value of its expression over the
unbounded integers. -/
theorem angle_input_eq_of_noOverflow (rc : RC_Channel) (angle_min angle_max : Int)
    (hne : rc.radio_max ≠ rc.radio_min) (h : NoOverflow32 rc angle_min angle_max) :
    angle_input rc angle_min angle_max =
      some (Int.tdiv ((if rc.get_reverse then -1 else 1) * (rc.radio_in - rc.radio_min)
                * (angle_max - angle_min)) (rc.radio_max - rc.radio_min)
            + (if rc.get_reverse then angle_max else angle_min)) := by
  obtain ⟨h1, h2, h3, h4, h5, h6, h7⟩ := h
  have hd : rc.radio_max - rc.radio_min ≠ 0 := sub_ne_zero.mpr hne
  unfold angle_input
  simp only [wrap32_eq_self h1, wrap32_eq_self h2, wrap32_eq_self h3, wrap32_eq_self h4,
    wrap32_eq_self h5, wrap32_eq_self h6, wrap32_eq_self h7, if_neg hd]

/-- At an end point of the calibrated range (`radio_in = radio_min`) the scaled
term vanishes: the result is the offset, whatever the other values are. -/
theorem angle_input_at_radio_min (radio_min radio_max angle_min angle_max : Int) (rev : Bool)
    (h1 : IsInt16 radio_min) (h2 : IsInt16 radio_max) (h3 : IsInt16 angle_min)
    (h4 : IsInt16 angle_max) (hne : radio_max ≠ radio_min) :
    angle_input ⟨radio_min, radio_min, radio_max, rev⟩ angle_min angle_max =
      some (if rev then angle_max else angle_min) := by
  have hno : NoOverflow32 ⟨radio_min, radio_min, radio_max, rev⟩ angle_min angle_max := by
    unfold NoOverflow32
    simp only [sub_self, mul_zero, zero_mul, Int.zero_tdiv, zero_add]
    refine ⟨by decide, by decide, isInt32_sub_of_isInt16 h4 h3, by decide,
      isInt32_sub_of_isInt16 h2 h1, by decide, ?_⟩
    cases rev
    · exact isInt32_of_isInt16 h3
    · exact isInt32_of_isInt16 h4
  rw [angle_input_eq_of_noOverflow _ _ _ hne hno]
  simp

/-- At the other end point (`radio_in = radio_max`) the scaled term is the whole
span, provided the product that the code forms is representable in 32 bits. -/
theorem angle_input_at_radio_max (radio_min radio_max angle_min angle_max : Int) (rev : Bool)
    (h1 : IsInt16 radio_min) (h2 : IsInt16 radio_max) (h3 : IsInt16 angle_min)
    (h4 : IsInt16 angle_max) (hne : radio_max ≠ radio_min)
    (hprod : IsInt32 ((if rev then -1 else 1) * (radio_max - radio_min)
      * (angle_max - angle_min))) :
    angle_input ⟨radio_max, radio_min, radio_max, rev⟩ angle_min angle_max =
      some (if rev then angle_min else angle_max) := by
  have hd : radio_max - radio_min ≠ 0 := sub_ne_zero.mpr hne
  have hD := isInt32_sub_of_isInt16 h2 h1
  have hS := isInt32_sub_of_isInt16 h4 h3
  have hno : NoOverflow32 ⟨radio_max, radio_min, radio_max, rev⟩ angle_min angle_max := by
    unfold NoOverflow32
    cases rev
    · simp only [Bool.false_eq_true, if_false, one_mul, Int.mul_tdiv_cancel_left _ hd] at hprod ⊢
      refine ⟨hD, hD, hS, hprod, hD, hS, ?_⟩
      have := isInt32_of_isInt16 h4
      unfold IsInt32 at *; omega
    · simp only [if_true, neg_mul, one_mul, Int.neg_tdiv, Int.mul_tdiv_cancel_left _ hd]
        at hprod ⊢
      generalize (radio_max - radio_min) * (angle_max - angle_min) = p at hprod ⊢
      unfold IsInt16 at *; unfold IsInt32 at *
      refine ⟨hD, by omega, hS, by omega, hD, by omega, by omega⟩
  rw [angle_input_eq_of_noOverflow _ _ _ hne hno]
  cases rev
  · simp only [Bool.false_eq_true, if_false, one_mul, Int.mul_tdiv_cancel_left _ hd]
    congr 1; omega
  · simp only [if_true, neg_mul, one_mul, Int.neg_tdiv, Int.mul_tdiv_cancel_left _ hd]
    congr 1; omega

/-- The truncated quotient `d * S / D` for `0 ≤ d ≤ D`, `0 < D`, `0 ≤ S` lies
between `0` and `S`. -/
theorem tdiv_scaled_bounds {d D S : Int} (hd0 : 0 ≤ d) (hdD : d ≤ D) (hD : 0 < D)
    (hS : 0 ≤ S) : 0 ≤ (d * S).tdiv D ∧ (d * S).tdiv D ≤ S := by
  have hp : 0 ≤ d * S := mul_nonneg hd0 hS
  rw [Int.tdiv_eq_ediv hp hD.le]
  constructor
  · exact Int.ediv_nonneg hp hD.le
  · have h1 : d * S ≤ S * D := by
      rw [mul_comm S D]; exact mul_le_mul_of_nonneg_right hdD hS
    exact Int.ediv_le_of_le_mul hD h1

/-- For an input inside the calibrated range of a channel with
`radio_min < radio_max`, for limits `angle_min ≤ angle_max`, and when the product
`(radio_in - radio_min) * (angle_max - angle_min)` is representable in 32 bits,
`angle_input` has no overflow: its result is `angle_min` plus (forward) or
`angle_max` minus (reversed) the scaled term, which lies between `0` and
`angle_max - angle_min`. -/
theorem angle_input_in_calibration (rc : RC_Channel) (angle_min angle_max : Int)
    (h3 : IsInt16 angle_min) (h4 : IsInt16 angle_max)
    (h1 : IsInt16 rc.radio_min) (h2 : IsInt16 rc.radio_max)
    (hcal : rc.radio_min < rc.radio_max)
    (hlo : rc.radio_min ≤ rc.radio_in) (hhi : rc.radio_in ≤ rc.radio_max)
    (hlim : angle_min ≤ angle_max)
    (hprod : (rc.radio_in - rc.radio_min) * (angle_max - angle_min) ≤ 2147483647) :
    angle_input rc angle_min angle_max =
      some (if rc.get_reverse
        then angle_max - scaled_term rc.radio_in rc.radio_min rc.radio_max angle_min angle_max
        else angle_min + scaled_term rc.radio_in rc.radio_min rc.radio_max angle_min angle_max)
    ∧ 0 ≤ scaled_term rc.radio_in rc.radio_min rc.radio_max angle_min angle_max
    ∧ scaled_term rc.radio_in rc.radio_min rc.radio_max angle_min angle_max
        ≤ angle_max - angle_min := by
  obtain ⟨radio_in, radio_min, radio_max, rev⟩ := rc
  simp only at h1 h2 hcal hlo hhi hprod
  simp only [scaled_term]
  have hne : radio_max ≠ radio_min := ne_of_gt hcal
  have hS : 0 ≤ angle_max - angle_min := by omega
  have hd0 : 0 ≤ radio_in - radio_min := by omega
  have hdD : radio_in - radio_min ≤ radio_max - radio_min := by omega
  have hD : 0 < radio_max - radio_min := by omega
  obtain ⟨hT0, hTS⟩ := tdiv_scaled_bounds hd0 hdD hD hS
  have hp0 : 0 ≤ (radio_in - radio_min) * (angle_max - angle_min) := mul_nonneg hd0 hS
  refine ⟨?_, hT0, hTS⟩
  have hno : NoOverflow32 ⟨radio_in, radio_min, radio_max, rev⟩ angle_min angle_max := by
    unfold NoOverflow32
    cases rev
    · simp only [Bool.false_eq_true, if_false, one_mul]
      generalize ((radio_in - radio_min) * (angle_max - angle_min)).tdiv
        (radio_max - radio_min) = T at hT0 hTS ⊢
      generalize (radio_in - radio_min) * (angle_max - angle_min) = p at hp0 hprod ⊢
      unfold IsInt16 at *; unfold IsInt32
      refine ⟨?_, ?_, ?_, ?_, ?_, ?_, ?_⟩ <;> omega
    · simp only [if_true, neg_mul, one_mul, Int.neg_tdiv]
      generalize ((radio_in - radio_min) * (angle_max - angle_min)).tdiv
        (radio_max - radio_min) = T at hT0 hTS ⊢
      generalize (radio_in - radio_min) * (angle_max - angle_min) = p at hp0 hprod ⊢
      unfold IsInt16 at *; unfold IsInt32
      refine ⟨?_, ?_, ?_, ?_, ?_, ?_, ?_⟩ <;> omega
  rw [angle_input_eq_of_noOverflow _ _ _ hne hno]
  cases rev
  · simp only [Bool.false_eq_true, if_false, one_mul]
    congr 1; omega
  · simp only [if_true, neg_mul, one_mul, Int.neg_tdiv]
    congr 1; omega

/-- Truncating division by two differs from exact halving by at most one half. -/
theorem tdiv_two_bounds (a : Int) : a - 1 ≤ 2 * a.tdiv 2 ∧ 2 * a.tdiv 2 ≤ a + 1 := by
  rcases le_or_lt 0 a with h | h
  · rw [Int.tdiv_eq_ediv h (by decide)]; omega
  · have h2 : a.tdiv 2 = -((-a) / 2) := by
      rw [← Int.tdiv_eq_ediv (by omega) (by decide), Int.neg_tdiv, neg_neg]
    rw [h2]; omega

/-- Truncating division by two is exact on even numbers. -/
theorem tdiv_two_of_even (a : Int) (h : a % 2 = 0) : 2 * a.tdiv 2 = a := by
  rcases le_or_lt 0 a with h0 | h0
  · rw [Int.tdiv_eq_ediv h0 (by decide)]; omega
  · have h2 : a.tdiv 2 = -((-a) / 2) := by
      rw [← Int.tdiv_eq_ediv (by omega) (by decide), Int.neg_tdiv, neg_neg]
    rw [h2]; omega

/-- The result at the midpoint `(radio_min + radio_max) / 2` of the calibrated
range (forward channel): `angle_min + T` where the distance of `2 * T` from the
span `angle_max - angle_min`, scaled by the radio span, is bounded by the angle
span; `T` is exactly half the angle span (rounded down) when the radio span is
even. -/
theorem angle_input_at_radio_mid (radio_min radio_max angle_min angle_max : Int)
    (h1 : IsInt16 radio_min) (h2 : IsInt16 radio_max)
    (h3 : IsInt16 angle_min) (h4 : IsInt16 angle_max)
    (hcal : radio_min < radio_max) (hlim : angle_min ≤ angle_max) :
    ∃ T, angle_input ⟨(radio_min + radio_max).tdiv 2, radio_min, radio_max, false⟩
          angle_min angle_max = some (angle_min + T) ∧
      (radio_max - radio_min) * (2 * T - (angle_max - angle_min))
        ≤ angle_max - angle_min ∧
      -(angle_max - angle_min) - 2 * (radio_max - radio_min)
        < (radio_max - radio_min) * (2 * T - (angle_max - angle_min)) ∧
      ((radio_max - radio_min) % 2 = 0 → T = (angle_max - angle_min) / 2) := by
  obtain ⟨hm1, hm2⟩ := tdiv_two_bounds (radio_min + radio_max)
  have hev := tdiv_two_of_even (radio_min + radio_max)
  generalize (radio_min + radio_max).tdiv 2 = m at hm1 hm2 hev ⊢
  have hS : 0 ≤ angle_max - angle_min := by omega
  have hD : 0 < radio_max - radio_min := by omega
  have hd0 : 0 ≤ m - radio_min := by omega
  have hd1 : m - radio_min ≤ 32768 := by unfold IsInt16 at h1 h2; omega
  have hS1 : angle_max - angle_min ≤ 65535 := by unfold IsInt16 at h3 h4; omega
  have hprod : (m - radio_min) * (angle_max - angle_min) ≤ 2147483647 := by
    calc (m - radio_min) * (angle_max - angle_min)
        ≤ 32768 * 65535 := mul_le_mul hd1 hS1 hS (by decide)
      _ ≤ 2147483647 := by decide
  obtain ⟨hval, -, -⟩ := angle_input_in_calibration ⟨m, radio_min, radio_max, false⟩
    angle_min angle_max h3 h4 h1 h2 hcal (by show radio_min ≤ m; omega)
    (by show m ≤ radio_max; omega) hlim hprod
  simp only [Bool.false_eq_true, if_false] at hval
  refine ⟨_, hval, ?_⟩
  simp only [scaled_term]
  rw [Int.tdiv_eq_ediv (mul_nonneg hd0 hS) hD.le]
  have hq1 := Int.mul_ediv_self_le (x := (m - radio_min) * (angle_max - angle_min))
    (ne_of_gt hD)
  have hq2 := Int.lt_mul_ediv_self_add (x := (m - radio_min) * (angle_max - angle_min)) hD
  generalize hT : (m - radio_min) * (angle_max - angle_min) / (radio_max - radio_min) = T
    at hq1 hq2
  -- the three possible values of `2 * (m - radio_min) - (radio_max - radio_min)`
  have hexp : (radio_max - radio_min) * (2 * T - (angle_max - angle_min))
      = 2 * ((radio_max - radio_min) * T)
        - 2 * ((m - radio_min) * (angle_max - angle_min))
        + (2 * (m - radio_min) - (radio_max - radio_min)) * (angle_max - angle_min) := by
    ring
  have hf : 2 * (m - radio_min) - (radio_max - radio_min) = -1
      ∨ 2 * (m - radio_min) - (radio_max - radio_min) = 0
      ∨ 2 * (m - radio_min) - (radio_max - radio_min) = 1 := by omega
  refine ⟨?_, ?_, ?_⟩
  · rw [hexp]
    rcases hf with hf | hf | hf <;> rw [hf] <;> omega
  · rw [hexp]
    rcases hf with hf | hf | hf <;> rw [hf] <;> omega
  · intro hDev
    have hmid : 2 * m = radio_min + radio_max := hev (by omega)
    have h2d : radio_max - radio_min = (m - radio_min) * 2 := by omega
    rw [← hT, h2d]
    exact Int.mul_ediv_mul_of_pos _ _ (by omega)

/-! ## The RC-to-angle mapping -/

/-- C2 (as stated, refuted): with `radio_min = -32768`, `radio_max = 32767`,
`angle_min = -18000`, `angle_max = 17999` and `reverse = false`, the product
`65535 * 35999` exceeds the signed 32-bit range, and at `radio_in = radio_max`
`angle_input` returns `-47538`, not `angle_max`. -/
theorem angle_input_forward_radio_max_overflow :
    IsInt16 (-32768) ∧ IsInt16 32767 ∧ IsInt16 (-18000) ∧ IsInt16 17999 ∧
    (32767 : Int) ≠ -32768 ∧
    angle_input ⟨32767, -32768, 32767, false⟩ (-18000) 17999 = some (-47538) ∧
    angle_input ⟨32767, -32768, 32767, false⟩ (-18000) 17999 ≠ some 17999 := by
  decide

/-- C2 (amended): for a forward channel (`reverse = false`) with
`radio_max ≠ radio_min`, all values being 16-bit, `angle_input` returns exactly
`angle_min` at `radio_in = radio_min`, and returns exactly `angle_max` at
`radio_in = radio_max` provided the product
`(radio_max - radio_min) * (angle_max - angle_min)` is representable as a signed
32-bit integer. -/
theorem angle_input_forward_endpoints (radio_min radio_max angle_min angle_max : Int)
    (h1 : IsInt16 radio_min) (h2 : IsInt16 radio_max)
    (h3 : IsInt16 angle_min) (h4 : IsInt16 angle_max) (hne : radio_max ≠ radio_min) :
    angle_input ⟨radio_min, radio_min, radio_max, false⟩ angle_min angle_max
      = some angle_min ∧
    (IsInt32 ((radio_max - radio_min) * (angle_max - angle_min)) →
      angle_input ⟨radio_max, radio_min, radio_max, false⟩ angle_min angle_max
        = some angle_max) := by
  constructor
  · simpa using angle_input_at_radio_min radio_min radio_max angle_min angle_max false
      h1 h2 h3 h4 hne
  · intro hprod
    simpa using angle_input_at_radio_max radio_min radio_max angle_min angle_max false
      h1 h2 h3 h4 hne (by simpa using hprod)

/-- C2 (amended), at the default limits and a usual calibration. -/
theorem angle_input_forward_endpoints_witness :
    angle_input ⟨1100, 1100, 1900, false⟩ (-4500) 4500 = some (-4500) ∧
    angle_input ⟨1900, 1100, 1900, false⟩ (-4500) 4500 = some 4500 :=
  have h := angle_input_forward_endpoints 1100 1900 (-4500) 4500
    (by decide) (by decide) (by decide) (by decide) (by decide)
  ⟨h.1, h.2 (by decide)⟩

/-- C3 (as stated, refuted): with `radio_min = -32768`, `radio_max = 32767`,
`angle_min = -18000`, `angle_max = 17999` and `reverse = true`, the product
overflows, and at `radio_in = radio_max` `angle_input` returns `47537`, not
`angle_min`. -/
theorem angle_input_reverse_radio_max_overflow :
    IsInt16 (-32768) ∧ IsInt16 32767 ∧ IsInt16 (-18000) ∧ IsInt16 17999 ∧
    (32767 : Int) ≠ -32768 ∧
    angle_input ⟨32767, -32768, 32767, true⟩ (-18000) 17999 = some 47537 ∧
    angle_input ⟨32767, -32768, 32767, true⟩ (-18000) 17999 ≠ some (-18000) := by
  decide

/-- C3 (amended): for a reversed channel (`reverse = true`) with
`radio_max ≠ radio_min`, all values being 16-bit, `angle_input` returns exactly
`angle_max` at `radio_in = radio_min`, and returns exactly `angle_min` at
`radio_in = radio_max` provided the product
`-(radio_max - radio_min) * (angle_max - angle_min)` that the code forms is
representable as a signed 32-bit integer. -/
theorem angle_input_reverse_endpoints (radio_min radio_max angle_min angle_max : Int)
    (h1 : IsInt16 radio_min) (h2 : IsInt16 radio_max)
    (h3 : IsInt16 angle_min) (h4 : IsInt16 angle_max) (hne : radio_max ≠ radio_min) :
    angle_input ⟨radio_min, radio_min, radio_max, true⟩ angle_min angle_max
      = some angle_max ∧
    (IsInt32 (-(radio_max - radio_min) * (angle_max - angle_min)) →
      angle_input ⟨radio_max, radio_min, radio_max, true⟩ angle_min angle_max
        = some angle_min) := by
  constructor
  · simpa using angle_input_at_radio_min radio_min radio_max angle_min angle_max true
      h1 h2 h3 h4 hne
  · intro hprod
    simpa using angle_input_at_radio_max radio_min radio_max angle_min angle_max true
      h1 h2 h3 h4 hne (by simpa using hprod)

/-- C3 (amended), at the default limits and a usual calibration. -/
theorem angle_input_reverse_endpoints_witness :
    angle_input ⟨1100, 1100, 1900, true⟩ (-4500) 4500 = some 4500 ∧
    angle_input ⟨1900, 1100, 1900, true⟩ (-4500) 4500 = some (-4500) :=
  have h := angle_input_reverse_endpoints 1100 1900 (-4500) 4500
    (by decide) (by decide) (by decide) (by decide) (by decide)
  ⟨h.1, h.2 (by decide)⟩

/-- C4 (as stated, refuted): for `radio_min = 1100`, `radio_max = 1901` the
midpoint is `1500`; with `angle_min = -4500`, `angle_max = 4500` and
`reverse = false`, `angle_input` returns `400 * 9000 / 801 - 4500 = -6`, which is
not within 1 of the midpoint `0` of the limits. -/
theorem angle_input_radio_mid_off_by_six :
    IsInt16 1100 ∧ IsInt16 1901 ∧ IsInt16 (-4500) ∧ IsInt16 4500 ∧
    (1100 : Int) < 1901 ∧ (-4500 : Int) < 4500 ∧
    Int.tdiv (1100 + 1901) 2 = 1500 ∧
    angle_input ⟨1500, 1100, 1901, false⟩ (-4500) 4500 = some (-6) ∧
    Int.tdiv (-4500 + 4500) 2 = 0 ∧
    ¬ (|(-6 : Int) - 0| ≤ 1) := by
  decide

/-- C4 (amended): for a forward channel with `radio_min < radio_max` and
`angle_min < angle_max` (16-bit values), at the midpoint
`radio_mid = (radio_min + radio_max) / 2` `angle_input` returns a value `a` whose
distance from the midpoint `(angle_min + angle_max) / 2` of the limits satisfies
`2 * (radio_max - radio_min) * |a - mid| < (angle_max - angle_min) + 3 * (radio_max - radio_min)`.
The distance is at most 1 when `radio_max - radio_min` is even, where
`a = angle_min + (angle_max - angle_min) / 2`, and also when
`angle_max - angle_min ≤ radio_max - radio_min`. -/
theorem angle_input_radio_mid (radio_min radio_max angle_min angle_max : Int)
    (h1 : IsInt16 radio_min) (h2 : IsInt16 radio_max)
    (h3 : IsInt16 angle_min) (h4 : IsInt16 angle_max)
    (hcal : radio_min < radio_max) (hlim : angle_min < angle_max) :
    ∃ a, angle_input ⟨(radio_min + radio_max).tdiv 2, radio_min, radio_max, false⟩
          angle_min angle_max = some a ∧
      2 * (radio_max - radio_min) * |a - (angle_min + angle_max).tdiv 2|
        < (angle_max - angle_min) + 3 * (radio_max - radio_min) ∧
      ((radio_max - radio_min) % 2 = 0 →
        a = angle_min + (angle_max - angle_min) / 2 ∧
        |a - (angle_min + angle_max).tdiv 2| ≤ 1) ∧
      (angle_max - angle_min ≤ radio_max - radio_min →
        |a - (angle_min + angle_max).tdiv 2| ≤ 1) := by
  obtain ⟨T, hval, hup, hlow, hev⟩ := angle_input_at_radio_mid radio_min radio_max
    angle_min angle_max h1 h2 h3 h4 hcal hlim.le
  obtain ⟨hM1, hM2⟩ := tdiv_two_bounds (angle_min + angle_max)
  generalize (angle_min + angle_max).tdiv 2 = M at hM1 hM2 ⊢
  have hD : 0 < radio_max - radio_min := by omega
  -- twice the signed distance, scaled by the radio span
  have hexp : 2 * (radio_max - radio_min) * (angle_min + T - M)
      = (radio_max - radio_min) * (2 * T - (angle_max - angle_min))
        + (radio_max - radio_min) * (angle_min + angle_max - 2 * M) := by ring
  have he : angle_min + angle_max - 2 * M = -1 ∨ angle_min + angle_max - 2 * M = 0
      ∨ angle_min + angle_max - 2 * M = 1 := by omega
  have hbound : 2 * (radio_max - radio_min) * |angle_min + T - M|
      < (angle_max - angle_min) + 3 * (radio_max - radio_min) := by
    rcases abs_cases (angle_min + T - M) with ⟨habs, -⟩ | ⟨habs, -⟩
    · rw [habs, hexp]
      rcases he with he | he | he <;> rw [he] <;> omega
    · rw [habs, mul_neg, hexp]
      rcases he with he | he | he <;> rw [he] <;> omega
  refine ⟨angle_min + T, hval, hbound, ?_, ?_⟩
  · intro hDev
    have hT := hev hDev
    refine ⟨by rw [hT], ?_⟩
    rw [abs_le]; omega
  · intro hSD
    have h4D : 2 * (radio_max - radio_min) * |angle_min + T - M|
        < 2 * (radio_max - radio_min) * 2 := by omega
    have h2D : 0 < 2 * (radio_max - radio_min) := by omega
    have := lt_of_mul_lt_mul_left h4D h2D.le
    omega

/-- C4 (amended), at an even radio span: `radio_min = 1100`, `radio_max = 1900`,
limits `-4500` and `4501`; the result is `0`, the midpoint is `0`. -/
theorem angle_input_radio_mid_witness :
    ∃ a, angle_input ⟨(1100 + 1900 : Int).tdiv 2, 1100, 1900, false⟩ (-4500) 4501 = some a ∧
      a = -4500 + (4501 - -4500) / 2 ∧ |a - (-4500 + 4501 : Int).tdiv 2| ≤ 1 :=
  have ⟨a, h, _, hev, _⟩ := angle_input_radio_mid 1100 1900 (-4500) 4501
    (by decide) (by decide) (by decide) (by decide) (by decide) (by decide)
  ⟨a, h, hev (by decide)⟩

/-- C5: without 32-bit overflow and with `radio_max ≠ radio_min`, `angle_input`
with `reverse` clear equals `angle_min + T` and with `reverse` set equals
`angle_max - T`, where `T` is the truncated scaled term
`(raw - radio_min) * (angle_max - angle_min) / (radio_max - radio_min)`; hence
the forward and the reversed results add up to `angle_min + angle_max`. -/
theorem angle_input_forward_reverse (raw radio_min radio_max angle_min angle_max : Int)
    (hne : radio_max ≠ radio_min)
    (hf : NoOverflow32 ⟨raw, radio_min, radio_max, false⟩ angle_min angle_max)
    (hr : NoOverflow32 ⟨raw, radio_min, radio_max, true⟩ angle_min angle_max) :
    angle_input ⟨raw, radio_min, radio_max, false⟩ angle_min angle_max
      = some (angle_min + scaled_term raw radio_min radio_max angle_min angle_max) ∧
    angle_input ⟨raw, radio_min, radio_max, true⟩ angle_min angle_max
      = some (angle_max - scaled_term raw radio_min radio_max angle_min angle_max) ∧
    ∃ f r, angle_input ⟨raw, radio_min, radio_max, false⟩ angle_min angle_max = some f ∧
      angle_input ⟨raw, radio_min, radio_max, true⟩ angle_min angle_max = some r ∧
      f + r = angle_min + angle_max := by
  have hfwd : angle_input ⟨raw, radio_min, radio_max, false⟩ angle_min angle_max
      = some (angle_min + scaled_term raw radio_min radio_max angle_min angle_max) := by
    rw [angle_input_eq_of_noOverflow _ _ _ hne hf]
    simp only [Bool.false_eq_true, if_false, one_mul, scaled_term]
    congr 1; omega
  have hrev : angle_input ⟨raw, radio_min, radio_max, true⟩ angle_min angle_max
      = some (angle_max - scaled_term raw radio_min radio_max angle_min angle_max) := by
    rw [angle_input_eq_of_noOverflow _ _ _ hne hr]
    simp only [if_true, neg_mul, one_mul, Int.neg_tdiv, scaled_term]
    congr 1; omega
  exact ⟨hfwd, hrev, _, _, hfwd, hrev, by omega⟩

/-- C5, at an input where the division truncates: `T = 400 * 9000 / 801 = 4494`. -/
theorem angle_input_forward_reverse_witness :
    (1901 : Int) ≠ 1100 ∧
    scaled_term 1500 1100 1901 (-4500) 4500 = 4494 ∧
    angle_input ⟨1500, 1100, 1901, false⟩ (-4500) 4500
      = some (-4500 + scaled_term 1500 1100 1901 (-4500) 4500) ∧
    angle_input ⟨1500, 1100, 1901, true⟩ (-4500) 4500
      = some (4500 - scaled_term 1500 1100 1901 (-4500) 4500) :=
  have h := angle_input_forward_reverse 1500 1100 1901 (-4500) 4500
    (by decide) (by decide) (by decide)
  ⟨by decide, by decide, h.1, h.2.1⟩

/-! ## The periodic update -/

/-- The switch statement in RC mode without a usable channel. -/
theorem update_branch_rc_fallback {F : Type} (geo : Geometry F) (env : Env F) (g : Gimbal F)
    (hmode : g._mount_mode = MAV_MOUNT_MODE_RC_TARGETING)
    (hch : g._tilt_rc_in = 0 ∨ rc_ch env g._tilt_rc_in = none) :
    update_branch geo env g = some { g with _tilt_angle := 8000 } := by
  unfold update_branch
  rw [if_pos hmode]
  by_cases hsel : g._tilt_rc_in = 0
  · simp [hsel]
  · rcases hch with h | h
    · exact absurd h hsel
    · simp [hsel, h]

/-- The switch statement in RC mode with a usable channel. -/
theorem update_branch_rc_channel {F : Type} (geo : Geometry F) (env : Env F) (g : Gimbal F)
    (rc : RC_Channel) (hmode : g._mount_mode = MAV_MOUNT_MODE_RC_TARGETING)
    (hsel : g._tilt_rc_in ≠ 0) (hch : rc_ch env g._tilt_rc_in = some rc) :
    update_branch geo env g =
      (angle_input rc g._tilt_angle_min g._tilt_angle_max).map
        (fun a => { g with _tilt_angle := a }) := by
  unfold update_branch
  rw [if_pos hmode]
  simp [hsel, hch]

/-- The switch statement in GPS mode without a fix. -/
theorem update_branch_gps_no_fix {F : Type} (geo : Geometry F) (env : Env F) (g : Gimbal F)
    (hmode : g._mount_mode = MAV_MOUNT_MODE_GPS_POINT)
    (hfix : env.gps_status < GPS_OK_FIX_2D) :
    update_branch geo env g = some g := by
  unfold update_branch
  have h34 : ¬ g._mount_mode = MAV_MOUNT_MODE_RC_TARGETING := by
    rw [hmode]; decide
  rw [if_neg h34, if_pos hmode, if_neg (not_le.mpr hfix)]

/-- C1 (as stated, refuted): in RC mode with channel 6 selected and available,
`radio_in = radio_min = 1100`, `radio_max = 1900`, `reverse = false` and the
default limits `-4500`, `4500`, the update stores `-4500` and hands `-4500` to
`move_servo`: a value below 0. -/
theorem update_gimbal_hands_negative_value :
    update_gimbal sample_geometry (sample_env ⟨1100, 1100, 1900, false⟩ 0)
        (sample_gimbal MAV_MOUNT_MODE_RC_TARGETING 6 (-4500) 4500)
      = some (⟨6, -4500, 4500, 3, -4500, ⟨0, 0, 0⟩⟩,
              ⟨Aux_servo_function_t.k_mount_tilt, -4500, 0, 9000⟩) ∧
    ¬ (0 ≤ (-4500 : Int) ∧ (-4500 : Int) ≤ 9000) := by
  decide

/-- C1 (amended): whenever `update_gimbal` returns, the value handed to
`move_servo` is the tilt angle that results from the branch logic, as it is
(not clamped), together with the fixed range bounds 0 and 9000.  That value
lies in `[0, 9000]` in RC mode without a usable channel, and in RC mode with a
usable channel whenever the input is inside the calibrated range
(`radio_min ≤ radio_in ≤ radio_max`, `radio_min < radio_max`, 16-bit) and the
limits satisfy `0 ≤ angle_min ≤ angle_max ≤ 9000`; in both cases the update does
return. -/
theorem update_gimbal_command {F : Type} (geo : Geometry F) (env : Env F) (g : Gimbal F) :
    (∀ g1 cmd, update_gimbal geo env g = some (g1, cmd) →
      cmd = ⟨Aux_servo_function_t.k_mount_tilt, g1._tilt_angle, 0, 9000⟩) ∧
    (g._mount_mode = MAV_MOUNT_MODE_RC_TARGETING →
      (g._tilt_rc_in = 0 ∨ rc_ch env g._tilt_rc_in = none) →
      ∃ g1 cmd, update_gimbal geo env g = some (g1, cmd) ∧
        0 ≤ cmd.value ∧ cmd.value ≤ 9000) ∧
    (∀ rc, g._mount_mode = MAV_MOUNT_MODE_RC_TARGETING → g._tilt_rc_in ≠ 0 →
      rc_ch env g._tilt_rc_in = some rc →
      IsInt16 rc.radio_min → IsInt16 rc.radio_max → rc.radio_min < rc.radio_max →
      rc.radio_min ≤ rc.radio_in → rc.radio_in ≤ rc.radio_max →
      0 ≤ g._tilt_angle_min → g._tilt_angle_min ≤ g._tilt_angle_max →
      g._tilt_angle_max ≤ 9000 →
      ∃ g1 cmd, update_gimbal geo env g = some (g1, cmd) ∧
        0 ≤ cmd.value ∧ cmd.value ≤ 9000) := by
  refine ⟨?_, ?_, ?_⟩
  · intro g1 cmd h
    unfold update_gimbal at h
    cases hb : update_branch geo env g with
    | none => rw [hb] at h; simp at h
    | some g2 =>
      rw [hb] at h
      simp only [Option.map_some', Option.some.injEq, Prod.mk.injEq] at h
      rw [← h.1, ← h.2]
  · intro hmode hch
    refine ⟨{ g with _tilt_angle := 8000 },
      ⟨Aux_servo_function_t.k_mount_tilt, 8000, 0, 9000⟩, ?_, by decide, by decide⟩
    unfold update_gimbal
    rw [update_branch_rc_fallback geo env g hmode hch]
    rfl
  · intro rc hmode hsel hch h1 h2 hcal hlo hhi hmin hlim hmax
    have h3 : IsInt16 g._tilt_angle_min := by unfold IsInt16; omega
    have h4 : IsInt16 g._tilt_angle_max := by unfold IsInt16; omega
    have hd0 : 0 ≤ rc.radio_in - rc.radio_min := by omega
    have hd1 : rc.radio_in - rc.radio_min ≤ 65535 := by
      unfold IsInt16 at h1 h2; omega
    have hS0 : 0 ≤ g._tilt_angle_max - g._tilt_angle_min := by omega
    have hS1 : g._tilt_angle_max - g._tilt_angle_min ≤ 9000 := by omega
    have hprod : (rc.radio_in - rc.radio_min) * (g._tilt_angle_max - g._tilt_angle_min)
        ≤ 2147483647 := by
      calc (rc.radio_in - rc.radio_min) * (g._tilt_angle_max - g._tilt_angle_min)
          ≤ 65535 * 9000 := mul_le_mul hd1 hS1 hS0 (by decide)
        _ ≤ 2147483647 := by decide
    obtain ⟨hval, hT0, hTS⟩ := angle_input_in_calibration rc g._tilt_angle_min
      g._tilt_angle_max h3 h4 h1 h2 hcal hlo hhi hlim hprod
    unfold update_gimbal
    rw [update_branch_rc_channel geo env g rc hmode hsel hch, hval]
    refine ⟨_, _, rfl, ?_, ?_⟩
    · show 0 ≤ (if rc.get_reverse = true then _ else _)
      split <;> omega
    · show (if rc.get_reverse = true then _ else _) ≤ 9000
      split <;> omega

/-- C1 (amended), in RC mode with channel 6 at mid stick and the limits 0 and
9000: the update returns and hands 4500 to `move_servo`. -/
theorem update_gimbal_command_witness :
    ∃ g1 cmd, update_gimbal sample_geometry (sample_env ⟨1500, 1100, 1900, false⟩ 0)
        (sample_gimbal MAV_MOUNT_MODE_RC_TARGETING 6 0 9000) = some (g1, cmd) ∧
      0 ≤ cmd.value ∧ cmd.value ≤ 9000 :=
  (update_gimbal_command sample_geometry (sample_env ⟨1500, 1100, 1900, false⟩ 0)
    (sample_gimbal MAV_MOUNT_MODE_RC_TARGETING 6 0 9000)).2.2 ⟨1500, 1100, 1900, false⟩
    (by decide) (by decide) (by decide) (by decide) (by decide) (by decide) (by decide)
    (by decide) (by decide) (by decide) (by decide)

/-! ## Mode and target mutators -/

/-- C6 (as stated, refuted): the requested value 260 is not `GPS_POINT` and lies
outside the 8-bit range; the cast `(int8_t)mode` turns it into 4, and `set_mode`
leaves the mode at `GPS_POINT`. -/
theorem set_mode_260_selects_gps_point :
    (260 : Int) ≠ MAV_MOUNT_MODE_GPS_POINT ∧
    (set_mode (sample_gimbal MAV_MOUNT_MODE_RC_TARGETING 0 (-4500) 4500) 260)._mount_mode
      = MAV_MOUNT_MODE_GPS_POINT := by
  decide

/-- C6 (amended): after `set_mode(mode)` the mode is `GPS_POINT` if and only if
the requested value converted to a signed 8-bit integer is `GPS_POINT`; in
particular, for a requested value inside the signed 8-bit range, if and only if
the requested value is `GPS_POINT`.  In every other case the mode is
`RC_TARGETING`.  No other member variable changes. -/
theorem set_mode_result {F : Type} (g : Gimbal F) (mode : Int) :
    ((set_mode g mode)._mount_mode = MAV_MOUNT_MODE_GPS_POINT
      ↔ wrap8 mode = MAV_MOUNT_MODE_GPS_POINT) ∧
    (-128 ≤ mode → mode ≤ 127 →
      ((set_mode g mode)._mount_mode = MAV_MOUNT_MODE_GPS_POINT
        ↔ mode = MAV_MOUNT_MODE_GPS_POINT)) ∧
    ((set_mode g mode)._mount_mode ≠ MAV_MOUNT_MODE_GPS_POINT →
      (set_mode g mode)._mount_mode = MAV_MOUNT_MODE_RC_TARGETING) ∧
    set_mode g mode = { g with _mount_mode := (set_mode g mode)._mount_mode } := by
  have hmain : (set_mode g mode)._mount_mode = MAV_MOUNT_MODE_GPS_POINT
      ↔ wrap8 mode = MAV_MOUNT_MODE_GPS_POINT := by
    unfold set_mode
    by_cases h : wrap8 mode = MAV_MOUNT_MODE_GPS_POINT
    · simp [h]
    · simp only [ne_eq, h, not_false_eq_true, if_true, iff_false]
      decide
  refine ⟨hmain, ?_, ?_, ?_⟩
  · intro hlo hhi
    rw [hmain, wrap8_eq_self ⟨hlo, hhi⟩]
  · intro hne
    unfold set_mode at hne ⊢
    by_cases h : wrap8 mode = MAV_MOUNT_MODE_GPS_POINT
    · simp [h] at hne
    · simp [h]
  · unfold set_mode
    by_cases h : wrap8 mode = MAV_MOUNT_MODE_GPS_POINT <;> simp [h]

/-- C6 (amended), at the requested values `GPS_POINT` and 1 (`NEUTRAL`). -/
theorem set_mode_result_witness :
    ((set_mode (sample_gimbal MAV_MOUNT_MODE_RC_TARGETING 0 (-4500) 4500)
        MAV_MOUNT_MODE_GPS_POINT)._mount_mode = MAV_MOUNT_MODE_GPS_POINT
      ↔ MAV_MOUNT_MODE_GPS_POINT = MAV_MOUNT_MODE_GPS_POINT) ∧
    (set_mode (sample_gimbal MAV_MOUNT_MODE_GPS_POINT 0 (-4500) 4500) 1)._mount_mode
      = MAV_MOUNT_MODE_RC_TARGETING :=
  ⟨(set_mode_result (sample_gimbal MAV_MOUNT_MODE_RC_TARGETING 0 (-4500) 4500)
      MAV_MOUNT_MODE_GPS_POINT).2.1 (by decide) (by decide),
   (set_mode_result (sample_gimbal MAV_MOUNT_MODE_GPS_POINT 0 (-4500) 4500) 1).2.2.1
      (by decide)⟩

/-- C7: after `set_ROI(p)` the stored target point is `p` and the mode is
`GPS_POINT`, whatever the prior state; calling `set_ROI(p)` twice gives the same
state as calling it once. -/
theorem set_ROI_result {F : Type} (g : Gimbal F) (p : Vector3f F) :
    (set_ROI g p)._roi_WP = p ∧
    (set_ROI g p)._mount_mode = MAV_MOUNT_MODE_GPS_POINT ∧
    set_ROI (set_ROI g p) p = set_ROI g p := by
  have h : ∀ g0 : Gimbal F, set_ROI g0 p =
      { g0 with _roi_WP := p, _mount_mode := MAV_MOUNT_MODE_GPS_POINT } := by
    intro g0
    have h8 : wrap8 MAV_MOUNT_MODE_GPS_POINT = MAV_MOUNT_MODE_GPS_POINT := by decide
    simp [set_ROI, set_mode, h8]
  refine ⟨?_, ?_, ?_⟩
  · rw [h]
  · rw [h]
  · rw [h (set_ROI g p), h g]

/-! ## The branches of the periodic update -/

/-- C8: in RC mode, when no channel is configured (`_tilt_rc_in = 0`) or the
selected channel is unavailable, `update_gimbal` returns, sets the tilt angle to
8000 and hands 8000 to `move_servo`, whatever the previous tilt angle and the
angle limits were. -/
theorem update_gimbal_rc_fallback {F : Type} (geo : Geometry F) (env : Env F) (g : Gimbal F)
    (hmode : g._mount_mode = MAV_MOUNT_MODE_RC_TARGETING)
    (hch : g._tilt_rc_in = 0 ∨ rc_ch env g._tilt_rc_in = none) :
    update_gimbal geo env g =
      some ({ g with _tilt_angle := 8000 },
            ⟨Aux_servo_function_t.k_mount_tilt, 8000, 0, 9000⟩) := by
  unfold update_gimbal
  rw [update_branch_rc_fallback geo env g hmode hch]
  rfl

/-- C8, with channel 8 selected while only channel 6 is available, and with no
channel selected. -/
theorem update_gimbal_rc_fallback_witness :
    update_gimbal sample_geometry (sample_env ⟨1500, 1100, 1900, false⟩ 3)
        (sample_gimbal MAV_MOUNT_MODE_RC_TARGETING 8 (-4500) 4500)
      = some (⟨8, -4500, 4500, 3, 8000, ⟨0, 0, 0⟩⟩,
              ⟨Aux_servo_function_t.k_mount_tilt, 8000, 0, 9000⟩) ∧
    update_gimbal sample_geometry (sample_env ⟨1500, 1100, 1900, false⟩ 3)
        (sample_gimbal MAV_MOUNT_MODE_RC_TARGETING 0 100 200)
      = some (⟨0, 100, 200, 3, 8000, ⟨0, 0, 0⟩⟩,
              ⟨Aux_servo_function_t.k_mount_tilt, 8000, 0, 9000⟩) :=
  ⟨update_gimbal_rc_fallback sample_geometry (sample_env ⟨1500, 1100, 1900, false⟩ 3)
      (sample_gimbal MAV_MOUNT_MODE_RC_TARGETING 8 (-4500) 4500) (by decide)
      (Or.inr (by decide)),
   update_gimbal_rc_fallback sample_geometry (sample_env ⟨1500, 1100, 1900, false⟩ 3)
      (sample_gimbal MAV_MOUNT_MODE_RC_TARGETING 0 100 200) (by decide)
      (Or.inl (by decide))⟩

/-- One tick in GPS mode without a fix: nothing changes, and the held tilt angle
is handed to `move_servo`. -/
theorem update_gimbal_no_fix_step {F : Type} (geo : Geometry F) (env : Env F) (g : Gimbal F)
    (hmode : g._mount_mode = MAV_MOUNT_MODE_GPS_POINT)
    (hfix : env.gps_status < GPS_OK_FIX_2D) :
    update_gimbal geo env g =
      some (g, ⟨Aux_servo_function_t.k_mount_tilt, g._tilt_angle, 0, 9000⟩) := by
  unfold update_gimbal
  rw [update_branch_gps_no_fix geo env g hmode hfix]
  rfl

/-- C9: in GPS mode, when the position source reports a status below a 2D fix,
`update_gimbal` returns, leaves the tilt angle (and every other member variable)
unchanged and hands the held tilt angle to `move_servo`; any number of
consecutive ticks without a fix hand the same value on every tick. -/
theorem update_gimbal_gps_no_fix {F : Type} (geo : Geometry F) (g : Gimbal F)
    (hmode : g._mount_mode = MAV_MOUNT_MODE_GPS_POINT) :
    (∀ env : Env F, env.gps_status < GPS_OK_FIX_2D →
      update_gimbal geo env g =
        some (g, ⟨Aux_servo_function_t.k_mount_tilt, g._tilt_angle, 0, 9000⟩)) ∧
    (∀ envs : List (Env F), (∀ env ∈ envs, env.gps_status < GPS_OK_FIX_2D) →
      update_ticks geo envs g =
        some (g, List.replicate envs.length
          ⟨Aux_servo_function_t.k_mount_tilt, g._tilt_angle, 0, 9000⟩)) := by
  refine ⟨fun env hfix => update_gimbal_no_fix_step geo env g hmode hfix, ?_⟩
  intro envs
  induction envs with
  | nil => intro _; rfl
  | cons env envs ih =>
    intro hall
    have hhead : env.gps_status < GPS_OK_FIX_2D := hall env (List.mem_cons_self _ _)
    have htail : ∀ e ∈ envs, e.gps_status < GPS_OK_FIX_2D :=
      fun e he => hall e (List.mem_cons_of_mem _ he)
    simp only [update_ticks, update_gimbal_no_fix_step geo env g hmode hhead, ih htail,
      List.length_cons, List.replicate_succ]

/-- C9, for a controller holding 2000 centidegrees and three ticks with the
statuses 0, 1, 1. -/
theorem update_gimbal_gps_no_fix_witness :
    update_ticks sample_geometry
        [sample_env ⟨1500, 1100, 1900, false⟩ 0, sample_env ⟨1900, 1100, 1900, false⟩ 1,
         sample_env ⟨1100, 1100, 1900, true⟩ 1]
        (sample_gimbal MAV_MOUNT_MODE_GPS_POINT 6 (-4500) 4500)
      = some (sample_gimbal MAV_MOUNT_MODE_GPS_POINT 6 (-4500) 4500,
          [⟨Aux_servo_function_t.k_mount_tilt, 2000, 0, 9000⟩,
           ⟨Aux_servo_function_t.k_mount_tilt, 2000, 0, 9000⟩,
           ⟨Aux_servo_function_t.k_mount_tilt, 2000, 0, 9000⟩]) :=
  (update_gimbal_gps_no_fix sample_geometry
    (sample_gimbal MAV_MOUNT_MODE_GPS_POINT 6 (-4500) 4500) (by decide)).2
    [sample_env ⟨1500, 1100, 1900, false⟩ 0, sample_env ⟨1900, 1100, 1900, false⟩ 1,
     sample_env ⟨1100, 1100, 1900, true⟩ 1]
    (by
      intro env henv
      simp only [List.mem_cons, List.mem_singleton, List.not_mem_nil, or_false] at henv
      rcases henv with h | h | h <;> rw [h] <;> decide)

/-- C10 (as stated, refuted): in RC mode with channel 6 selected and available,
`radio_in = radio_max`, `reverse = false` and the limits 0 and 12000,
`angle_input` is 12000 and the update hands 12000 to `move_servo`, whereas
`clamp(12000, 0, 9000)` is 9000. -/
theorem update_gimbal_hands_value_above_9000 :
    MAV_MOUNT_MODE_RC_TARGETING = (3 : Int) ∧
    angle_input ⟨1900, 1100, 1900, false⟩ 0 12000 = some 12000 ∧
    update_gimbal sample_geometry (sample_env ⟨1900, 1100, 1900, false⟩ 0)
        (sample_gimbal MAV_MOUNT_MODE_RC_TARGETING 6 0 12000)
      = some (⟨6, 0, 12000, 3, 12000, ⟨0, 0, 0⟩⟩,
              ⟨Aux_servo_function_t.k_mount_tilt, 12000, 0, 9000⟩) ∧
    clamp 12000 0 9000 = 9000 ∧ (12000 : Int) ≠ clamp 12000 0 9000 := by
  decide

/-- C10 (amended): in RC mode with a selector other than 0 and the selected
channel available, whenever `angle_input` has a value `a` for the channel and
the configured limits, `update_gimbal` returns, stores `a` as the tilt angle and
hands `a` itself to `move_servo` with the range bounds 0 and 9000; `a` equals
`clamp(a, 0, 9000)` exactly when `0 ≤ a ≤ 9000`.  In particular with
`radio_in = radio_max ≠ radio_min` (16-bit), `reverse = false`,
`angle_min = -4500` and `angle_max = 4500` it hands 4500. -/
theorem update_gimbal_rc_channel {F : Type} (geo : Geometry F) (env : Env F) (g : Gimbal F)
    (rc : RC_Channel) (hmode : g._mount_mode = MAV_MOUNT_MODE_RC_TARGETING)
    (hsel : g._tilt_rc_in ≠ 0) (hch : rc_ch env g._tilt_rc_in = some rc) :
    (∀ a, angle_input rc g._tilt_angle_min g._tilt_angle_max = some a →
      update_gimbal geo env g =
        some ({ g with _tilt_angle := a },
              ⟨Aux_servo_function_t.k_mount_tilt, a, 0, 9000⟩) ∧
      (a = clamp a 0 9000 ↔ 0 ≤ a ∧ a ≤ 9000)) ∧
    (rc.radio_in = rc.radio_max → rc.get_reverse = false →
      g._tilt_angle_min = -4500 → g._tilt_angle_max = 4500 →
      IsInt16 rc.radio_min → IsInt16 rc.radio_max → rc.radio_max ≠ rc.radio_min →
      update_gimbal geo env g =
        some ({ g with _tilt_angle := 4500 },
              ⟨Aux_servo_function_t.k_mount_tilt, 4500, 0, 9000⟩)) := by
  have hstep : ∀ a, angle_input rc g._tilt_angle_min g._tilt_angle_max = some a →
      update_gimbal geo env g =
        some ({ g with _tilt_angle := a },
              ⟨Aux_servo_function_t.k_mount_tilt, a, 0, 9000⟩) := by
    intro a ha
    unfold update_gimbal
    rw [update_branch_rc_channel geo env g rc hmode hsel hch, ha]
    rfl
  refine ⟨fun a ha => ⟨hstep a ha, ?_⟩, ?_⟩
  · unfold clamp
    split
    · omega
    · split <;> omega
  · intro hin hrev hmin hmax h1 h2 hne
    apply hstep
    obtain ⟨radio_in, radio_min, radio_max, rev⟩ := rc
    simp only at hin hrev h1 h2 hne
    subst hin hrev
    rw [hmin, hmax]
    have hprod : IsInt32 ((if false = true then -1 else 1) * (radio_in - radio_min)
        * (4500 - -4500)) := by
      unfold IsInt16 at h1 h2; unfold IsInt32
      simp only [Bool.false_eq_true, if_false, one_mul]
      omega
    simpa using angle_input_at_radio_max radio_min radio_in (-4500) 4500 false h1 h2
      (by decide) (by decide) hne hprod

/-- C10 (amended), the scenario of the specification at the calibration
1100..1900. -/
theorem update_gimbal_rc_channel_witness :
    update_gimbal sample_geometry (sample_env ⟨1900, 1100, 1900, false⟩ 0)
        (sample_gimbal MAV_MOUNT_MODE_RC_TARGETING 6 (-4500) 4500)
      = some (⟨6, -4500, 4500, 3, 4500, ⟨0, 0, 0⟩⟩,
              ⟨Aux_servo_function_t.k_mount_tilt, 4500, 0, 9000⟩) :=
  (update_gimbal_rc_channel sample_geometry (sample_env ⟨1900, 1100, 1900, false⟩ 0)
    (sample_gimbal MAV_MOUNT_MODE_RC_TARGETING 6 (-4500) 4500) ⟨1900, 1100, 1900, false⟩
    (by decide) (by decide) (by decide)).2 (by decide) (by decide) (by decide) (by decide)
    (by decide) (by decide) (by decide)

/-! ## Frame properties and the mode state machine -/

/-- The switch statement of `update_gimbal` changes at most the tilt angle. -/
theorem update_branch_frame {F : Type} (geo : Geometry F) (env : Env F) (g g1 : Gimbal F)
    (h : update_branch geo env g = some g1) :
    g1 = { g with _tilt_angle := g1._tilt_angle } := by
  unfold update_branch at h
  split at h
  · split at h
    · split at h
      · cases ha : angle_input ‹RC_Channel› g._tilt_angle_min g._tilt_angle_max with
        | none => rw [ha] at h; simp at h
        | some a =>
          rw [ha] at h
          simp only [Option.map_some', Option.some.injEq] at h
          rw [← h]
      · simp only [Option.some.injEq] at h
        rw [← h]
    · simp only [Option.some.injEq] at h
      rw [← h]
  · split at h
    · split at h
      · simp only [Option.some.injEq] at h
        rw [← h]; rfl
      · simp only [Option.some.injEq] at h
        rw [← h]
    · simp only [Option.some.injEq] at h
      rw [← h]

/-- A call of `update_gimbal` changes at most the tilt angle. -/
theorem update_gimbal_frame {F : Type} (geo : Geometry F) (env : Env F) (g g1 : Gimbal F)
    (cmd : ServoCommand) (h : update_gimbal geo env g = some (g1, cmd)) :
    g1 = { g with _tilt_angle := g1._tilt_angle } := by
  unfold update_gimbal at h
  cases hb : update_branch geo env g with
  | none => rw [hb] at h; simp at h
  | some g2 =>
    rw [hb] at h
    simp only [Option.map_some', Option.some.injEq, Prod.mk.injEq] at h
    rw [← h.1]
    exact update_branch_frame geo env g g2 hb

/-- The mode after `set_mode` is one of the two accepted modes. -/
theorem set_mode_mode_cases {F : Type} (g : Gimbal F) (mode : Int) :
    (set_mode g mode)._mount_mode = MAV_MOUNT_MODE_RC_TARGETING ∨
    (set_mode g mode)._mount_mode = MAV_MOUNT_MODE_GPS_POINT := by
  unfold set_mode
  by_cases h : wrap8 mode = MAV_MOUNT_MODE_GPS_POINT
  · right; simp [h]
  · left; simp [h]

/-- The mode after `set_mode` is `GPS_POINT` only if the converted request is. -/
theorem set_mode_gps_point {F : Type} (g : Gimbal F) (mode : Int)
    (h : (set_mode g mode)._mount_mode = MAV_MOUNT_MODE_GPS_POINT) :
    wrap8 mode = MAV_MOUNT_MODE_GPS_POINT := by
  unfold set_mode at h
  by_cases h8 : wrap8 mode = MAV_MOUNT_MODE_GPS_POINT
  · exact h8
  · simp only [ne_eq, h8, not_false_eq_true, if_true] at h
    exact absurd h (by decide)

/-- A step of the state machine keeps the mode within the two accepted modes. -/
theorem step_mode_cases {F : Type} (geo : Geometry F) (prj : Projection F)
    (op : Operation F) (g g1 : Gimbal F) (hstep : step geo prj op g = some g1)
    (hg : g._mount_mode = MAV_MOUNT_MODE_RC_TARGETING ∨
      g._mount_mode = MAV_MOUNT_MODE_GPS_POINT) :
    g1._mount_mode = MAV_MOUNT_MODE_RC_TARGETING ∨
      g1._mount_mode = MAV_MOUNT_MODE_GPS_POINT := by
  cases op with
  | update env =>
    simp only [step] at hstep
    cases hu : update_gimbal geo env g with
    | none => rw [hu] at hstep; simp at hstep
    | some r =>
      obtain ⟨g2, cmd⟩ := r
      rw [hu] at hstep
      simp only [Option.map_some', Option.some.injEq] at hstep
      have hf := update_gimbal_frame geo env g g2 cmd hu
      rw [← hstep, hf]
      exact hg
  | mode_select mode =>
    simp only [step, Option.some.injEq] at hstep
    rw [← hstep]
    exact set_mode_mode_cases g mode
  | set_target_point p =>
    simp only [step, Option.some.injEq] at hstep
    rw [← hstep]
    exact set_mode_mode_cases _ _
  | derive_target_point env =>
    simp only [step, Option.some.injEq] at hstep
    rw [← hstep]
    exact hg

/-- C11 (as stated, refuted): with the stored target point `(10, 20, 5)`, a call
of `get_ROI_from_gimbal` overwrites the stored target point (its third
component becomes 0). -/
theorem get_ROI_from_gimbal_overwrites_target :
    (get_ROI_from_gimbal real_projection
        ⟨fun _ => none, 3, ⟨0, 0, 1000⟩, 1, 0⟩
        ⟨0, -4500, 4500, MAV_MOUNT_MODE_RC_TARGETING, 4500, ⟨10, 20, 5⟩⟩).1._roi_WP
      ≠ (⟨10, 20, 5⟩ : Vector3f ℝ) := by
  intro h
  have hz := congrArg Vector3f.z h
  simp [get_ROI_from_gimbal, real_projection] at hz

/-- C11 (amended): `get_ROI_from_gimbal` leaves the mode, the tilt angle and the
parameters as they are, and stores the point it returns as the new target
point, whose third component is 0.  The stored target point is written by
`set_ROI` and by `get_ROI_from_gimbal`; `set_mode` and `update_gimbal` leave it
as it is. -/
theorem get_ROI_from_gimbal_frame {F : Type} (prj : Projection F) (env : Env F)
    (g : Gimbal F) :
    (get_ROI_from_gimbal prj env g).1
      = { g with _roi_WP := (get_ROI_from_gimbal prj env g).2 } ∧
    (get_ROI_from_gimbal prj env g).1._mount_mode = g._mount_mode ∧
    (get_ROI_from_gimbal prj env g).1._tilt_angle = g._tilt_angle ∧
    (get_ROI_from_gimbal prj env g).1._roi_WP = (get_ROI_from_gimbal prj env g).2 ∧
    (get_ROI_from_gimbal prj env g).2.z = prj.zero ∧
    (∀ p : Vector3f F, (set_ROI g p)._roi_WP = p) ∧
    (∀ mode : Int, (set_mode g mode)._roi_WP = g._roi_WP) ∧
    (∀ (geo : Geometry F) (env1 : Env F),
      (update_gimbal geo env1 g).map (fun r => r.1._roi_WP)
        = (update_gimbal geo env1 g).map (fun _ => g._roi_WP)) := by
  refine ⟨rfl, rfl, rfl, rfl, rfl, ?_, ?_, ?_⟩
  · intro p
    unfold set_ROI set_mode
    by_cases h : wrap8 MAV_MOUNT_MODE_GPS_POINT = MAV_MOUNT_MODE_GPS_POINT <;> simp [h]
  · intro mode
    unfold set_mode
    by_cases h : wrap8 mode = MAV_MOUNT_MODE_GPS_POINT <;> simp [h]
  · intro geo env1
    cases hu : update_gimbal geo env1 g with
    | none => rfl
    | some r =>
      obtain ⟨g1, cmd⟩ := r
      have hf := update_gimbal_frame geo env1 g g1 cmd hu
      simp only [Option.map_some', Option.some.injEq]
      rw [hf]

/-- C12 (as stated, refuted): in `RC_TARGETING` mode the step `set_mode(GPS_POINT)`,
which is not a `set_ROI` step, takes the mode to `GPS_POINT`. -/
theorem mode_select_enters_gps_point :
    (sample_gimbal MAV_MOUNT_MODE_RC_TARGETING 0 (-4500) 4500)._mount_mode
      = MAV_MOUNT_MODE_RC_TARGETING ∧
    (step sample_geometry sample_projection
        (Operation.mode_select MAV_MOUNT_MODE_GPS_POINT)
        (sample_gimbal MAV_MOUNT_MODE_RC_TARGETING 0 (-4500) 4500)).map
          (fun g => g._mount_mode) = some MAV_MOUNT_MODE_GPS_POINT ∧
    ∀ p : Vector3f Int, (Operation.mode_select MAV_MOUNT_MODE_GPS_POINT : Operation Int)
      ≠ Operation.set_target_point p := by
  refine ⟨by decide, by decide, ?_⟩
  intro p h
  cases h

/-- C12 (amended): every step that takes the mode from `RC_TARGETING` to
`GPS_POINT` is a `set_ROI` step or a `set_mode(m)` step whose request `m`,
converted to a signed 8-bit integer, is `GPS_POINT`; `update_gimbal` and
`get_ROI_from_gimbal` steps never perform that transition. -/
theorem step_enters_gps_point {F : Type} (geo : Geometry F) (prj : Projection F)
    (op : Operation F) (g g1 : Gimbal F) (hstep : step geo prj op g = some g1)
    (hrc : g._mount_mode = MAV_MOUNT_MODE_RC_TARGETING)
    (hgps : g1._mount_mode = MAV_MOUNT_MODE_GPS_POINT) :
    (∃ p, op = Operation.set_target_point p) ∨
    (∃ m, op = Operation.mode_select m ∧ wrap8 m = MAV_MOUNT_MODE_GPS_POINT) := by
  have hne : MAV_MOUNT_MODE_RC_TARGETING ≠ MAV_MOUNT_MODE_GPS_POINT := by decide
  cases op with
  | update env =>
    exfalso
    simp only [step] at hstep
    cases hu : update_gimbal geo env g with
    | none => rw [hu] at hstep; simp at hstep
    | some r =>
      obtain ⟨g2, cmd⟩ := r
      rw [hu] at hstep
      simp only [Option.map_some', Option.some.injEq] at hstep
      have hf := update_gimbal_frame geo env g g2 cmd hu
      rw [← hstep, hf] at hgps
      exact hne (hrc.symm.trans hgps)
  | mode_select mode =>
    right
    simp only [step, Option.some.injEq] at hstep
    rw [← hstep] at hgps
    exact ⟨mode, rfl, set_mode_gps_point g mode hgps⟩
  | set_target_point p => exact Or.inl ⟨p, rfl⟩
  | derive_target_point env =>
    exfalso
    simp only [step, Option.some.injEq] at hstep
    rw [← hstep] at hgps
    exact hne (hrc.symm.trans hgps)

/-- C12 (amended), at a `set_mode(GPS_POINT)` step from `RC_TARGETING`. -/
theorem step_enters_gps_point_witness :
    (∃ p, (Operation.mode_select 4 : Operation Int) = Operation.set_target_point p) ∨
    (∃ m, (Operation.mode_select 4 : Operation Int) = Operation.mode_select m ∧
      wrap8 m = MAV_MOUNT_MODE_GPS_POINT) :=
  step_enters_gps_point sample_geometry sample_projection (Operation.mode_select 4)
    (sample_gimbal MAV_MOUNT_MODE_RC_TARGETING 0 (-4500) 4500)
    (sample_gimbal MAV_MOUNT_MODE_GPS_POINT 0 (-4500) 4500) (by decide) (by decide)
    (by decide)

/-- C15 (the code at the failing input): for a channel whose calibrated
`radio_max` equals `radio_min` the divisor of `angle_input` is zero and the
division is reached: `angle_input` has no defined result, and neither has
`update_gimbal` in RC mode with that channel selected. -/
theorem update_gimbal_zero_divisor :
    wrap32 (1500 - 1500) = 0 ∧
    angle_input ⟨1500, 1500, 1500, false⟩ (-4500) 4500 = none ∧
    update_gimbal sample_geometry (sample_env ⟨1500, 1500, 1500, false⟩ 3)
      (sample_gimbal MAV_MOUNT_MODE_RC_TARGETING 6 (-4500) 4500) = none := by
  decide

/-- C16: the controller is constructed in `RC_TARGETING` mode, and after every
finite sequence of `update_gimbal`, `set_mode`, `set_ROI` and
`get_ROI_from_gimbal` calls the mode is `RC_TARGETING` or `GPS_POINT`; so the
`default` branch of the switch statement of `update_gimbal` is never taken. -/
theorem reachable_mode {F : Type} (geo : Geometry F) (prj : Projection F)
    (tilt_angle : Int) (roi_WP : Vector3f F) (ops : List (Operation F)) (g : Gimbal F)
    (hrun : run geo prj ops (AC_Gimbal tilt_angle roi_WP) = some g) :
    (AC_Gimbal tilt_angle roi_WP : Gimbal F)._mount_mode = MAV_MOUNT_MODE_RC_TARGETING ∧
    (g._mount_mode = MAV_MOUNT_MODE_RC_TARGETING ∨
      g._mount_mode = MAV_MOUNT_MODE_GPS_POINT) ∧
    ¬ takes_default_branch g := by
  have hinv : ∀ (ops : List (Operation F)) (g0 g : Gimbal F),
      (g0._mount_mode = MAV_MOUNT_MODE_RC_TARGETING ∨
        g0._mount_mode = MAV_MOUNT_MODE_GPS_POINT) →
      run geo prj ops g0 = some g →
      (g._mount_mode = MAV_MOUNT_MODE_RC_TARGETING ∨
        g._mount_mode = MAV_MOUNT_MODE_GPS_POINT) := by
    intro ops
    induction ops with
    | nil =>
      intro g0 g h0 hr
      simp only [run, Option.some.injEq] at hr
      rw [← hr]; exact h0
    | cons op ops ih =>
      intro g0 g h0 hr
      simp only [run] at hr
      cases hs : step geo prj op g0 with
      | none => rw [hs] at hr; simp at hr
      | some g1 =>
        rw [hs] at hr
        exact ih g1 g (step_mode_cases geo prj op g0 g1 hs h0) hr
  have hmode := hinv ops (AC_Gimbal tilt_angle roi_WP) g (Or.inl rfl) hrun
  refine ⟨rfl, hmode, ?_⟩
  intro hdef
  rcases hmode with h | h
  · exact hdef.1 h
  · exact hdef.2 h

/-- C16, after a `set_mode(1)`, a `set_ROI`, an `update_gimbal` without a fix and a
`get_ROI_from_gimbal` call: the mode is `GPS_POINT`. -/
theorem reachable_mode_witness :
    run sample_geometry sample_projection
        [Operation.mode_select 1, Operation.set_target_point ⟨1, 2, 3⟩,
         Operation.update (sample_env ⟨1500, 1100, 1900, false⟩ 0),
         Operation.derive_target_point (sample_env ⟨1500, 1100, 1900, false⟩ 0)]
        (AC_Gimbal 2000 ⟨0, 0, 0⟩)
      = some ⟨0, -4500, 4500, 4, 2000, ⟨-1000, 0, 0⟩⟩ ∧
    ¬ takes_default_branch (⟨0, -4500, 4500, 4, 2000, ⟨-1000, 0, 0⟩⟩ : Gimbal Int) :=
  have hrun : run sample_geometry sample_projection
        [Operation.mode_select 1, Operation.set_target_point ⟨1, 2, 3⟩,
         Operation.update (sample_env ⟨1500, 1100, 1900, false⟩ 0),
         Operation.derive_target_point (sample_env ⟨1500, 1100, 1900, false⟩ 0)]
        (AC_Gimbal 2000 ⟨0, 0, 0⟩)
      = some ⟨0, -4500, 4500, 4, 2000, ⟨-1000, 0, 0⟩⟩ := by decide
  ⟨hrun, (reachable_mode sample_geometry sample_projection 2000 ⟨0, 0, 0⟩ _ _ hrun).2.2⟩

/-! ## Range, overflow and monotonicity of the RC-to-angle mapping -/

/-- A truncated quotient is not larger in absolute value than the dividend. -/
theorem tdiv_abs_le (a b : Int) : -|a| ≤ a.tdiv b ∧ a.tdiv b ≤ |a| := by
  have h := Int.natAbs_tdiv a b
  have h2 : (a.natAbs).div b.natAbs ≤ a.natAbs := Nat.div_le_self _ _
  rw [← h] at h2
  exact abs_le.mp (show |a.tdiv b| ≤ |a| by
    rw [Int.abs_eq_natAbs, Int.abs_eq_natAbs]; exact_mod_cast h2)

/-- Truncating division by a positive divisor is monotone in the dividend. -/
theorem tdiv_le_tdiv_of_le {a b c : Int} (hc : 0 < c) (h : a ≤ b) :
    a.tdiv c ≤ b.tdiv c := by
  have hneg : ∀ x : Int, x < 0 → x.tdiv c = -((-x) / c) := by
    intro x hx
    rw [← Int.tdiv_eq_ediv (by omega) hc.le, Int.neg_tdiv, neg_neg]
  rcases le_or_lt 0 a with ha | ha
  · rw [Int.tdiv_eq_ediv ha hc.le, Int.tdiv_eq_ediv (le_trans ha h) hc.le]
    exact Int.ediv_le_ediv hc h
  · rcases le_or_lt 0 b with hb | hb
    · have h1 : 0 ≤ (-a) / c := Int.ediv_nonneg (by omega) hc.le
      have h2 : 0 ≤ b.tdiv c := Int.tdiv_nonneg hb hc.le
      rw [hneg a ha]; omega
    · have h1 := Int.ediv_le_ediv hc (show -b ≤ -a by omega)
      rw [hneg a ha, hneg b hb]; omega

/-- C18 (as stated, refuted): for `radio_min = -32768`, `radio_max = 32767`, the
limits `-18000` and `17999` and the input `32000` inside the calibrated range,
the product `64768 * 35999` overflows and the forward mapping returns `-47959`,
which is below `angle_min`. -/
theorem angle_input_in_calibration_overflow :
    (-32768 : Int) < 32767 ∧ (-18000 : Int) ≤ 17999 ∧
    (-32768 : Int) ≤ 32000 ∧ (32000 : Int) ≤ 32767 ∧
    angle_input ⟨32000, -32768, 32767, false⟩ (-18000) 17999 = some (-47959) ∧
    ¬ ((-18000 : Int) ≤ -47959 ∧ (-47959 : Int) ≤ 17999) := by
  decide

/-- C18 (amended): for a channel with `radio_min < radio_max`, limits
`angle_min ≤ angle_max` (16-bit values), either value of the reverse flag and an
input with `radio_min ≤ radio_in ≤ radio_max`, `angle_input` returns a value in
`[angle_min, angle_max]`, provided the product
`(radio_in - radio_min) * (angle_max - angle_min)` is representable as a signed
32-bit integer. -/
theorem angle_input_within_limits (rc : RC_Channel) (angle_min angle_max : Int)
    (h3 : IsInt16 angle_min) (h4 : IsInt16 angle_max)
    (h1 : IsInt16 rc.radio_min) (h2 : IsInt16 rc.radio_max)
    (hcal : rc.radio_min < rc.radio_max)
    (hlo : rc.radio_min ≤ rc.radio_in) (hhi : rc.radio_in ≤ rc.radio_max)
    (hlim : angle_min ≤ angle_max)
    (hprod : (rc.radio_in - rc.radio_min) * (angle_max - angle_min) ≤ 2147483647) :
    ∃ a, angle_input rc angle_min angle_max = some a ∧ angle_min ≤ a ∧ a ≤ angle_max := by
  obtain ⟨hval, hT0, hTS⟩ := angle_input_in_calibration rc angle_min angle_max
    h3 h4 h1 h2 hcal hlo hhi hlim hprod
  refine ⟨_, hval, ?_, ?_⟩
  · split <;> omega
  · split <;> omega

/-- C18 (amended), for a reversed channel at the default limits. -/
theorem angle_input_within_limits_witness :
    ∃ a, angle_input ⟨1300, 1100, 1901, true⟩ (-4500) 4500 = some a ∧
      -4500 ≤ a ∧ a ≤ 4500 :=
  angle_input_within_limits ⟨1300, 1100, 1901, true⟩ (-4500) 4500 (by decide) (by decide)
    (by decide) (by decide) (by decide) (by decide) (by decide) (by decide) (by decide)

/-- C19 (as stated, refuted): for the 16-bit values `radio_in = 32767`,
`radio_min = -32768`, `radio_max = 0` and the limits `-18000`, `17999`, the
product `65535 * 35999 = 2359194465` is not representable as a signed 32-bit
integer, and `angle_input` returns `-77075` whereas the exact formula gives
`53996`. -/
theorem angle_input_product_overflow :
    IsInt16 32767 ∧ IsInt16 (-32768) ∧ IsInt16 0 ∧ (0 : Int) ≠ -32768 ∧
    (32767 - -32768 : Int) * (17999 - -18000) = 2359194465 ∧
    ¬ IsInt32 ((32767 - -32768) * (17999 - -18000)) ∧
    angle_input ⟨32767, -32768, 0, false⟩ (-18000) 17999 = some (-77075) ∧
    -18000 + scaled_term 32767 (-32768) 0 (-18000) 17999 = 53996 := by
  decide

/-- C19 (amended): for 16-bit `radio_in`, `radio_min`, `radio_max` with
`radio_max ≠ radio_min` and limits in `[-18000, 17999]`, the product
`(radio_in - radio_min) * (angle_max - angle_min)` is representable as a signed
32-bit integer provided `|radio_in - radio_min| ≤ 59653`; the result of
`angle_input` is then the value of the exact truncating formula over the
unbounded integers. -/
theorem angle_input_product_fits (rc : RC_Channel) (angle_min angle_max : Int)
    (hin : IsInt16 rc.radio_in) (hmin : IsInt16 rc.radio_min) (hmax : IsInt16 rc.radio_max)
    (hne : rc.radio_max ≠ rc.radio_min)
    (ha1 : -18000 ≤ angle_min ∧ angle_min ≤ 17999)
    (ha2 : -18000 ≤ angle_max ∧ angle_max ≤ 17999)
    (hd : |rc.radio_in - rc.radio_min| ≤ 59653) :
    IsInt32 ((rc.radio_in - rc.radio_min) * (angle_max - angle_min)) ∧
    angle_input rc angle_min angle_max =
      some (Int.tdiv ((if rc.get_reverse then -1 else 1) * (rc.radio_in - rc.radio_min)
                * (angle_max - angle_min)) (rc.radio_max - rc.radio_min)
            + (if rc.get_reverse then angle_max else angle_min)) := by
  obtain ⟨radio_in, radio_min, radio_max, rev⟩ := rc
  simp only at hin hmin hmax hne hd ⊢
  have hS : |angle_max - angle_min| ≤ 35999 := by rw [abs_le]; omega
  have habs : |(radio_in - radio_min) * (angle_max - angle_min)| ≤ 2147448347 := by
    rw [abs_mul]
    calc |radio_in - radio_min| * |angle_max - angle_min|
        ≤ 59653 * 35999 := mul_le_mul hd hS (abs_nonneg _) (by decide)
      _ = 2147448347 := by decide
  obtain ⟨hq1, hq2⟩ := tdiv_abs_le ((radio_in - radio_min) * (angle_max - angle_min))
    (radio_max - radio_min)
  obtain ⟨hp1, hp2⟩ := abs_le.mp habs
  rw [abs_le] at hd
  have hprod : IsInt32 ((radio_in - radio_min) * (angle_max - angle_min)) := by
    unfold IsInt32; omega
  refine ⟨hprod, ?_⟩
  have hno : NoOverflow32 ⟨radio_in, radio_min, radio_max, rev⟩ angle_min angle_max := by
    unfold NoOverflow32
    cases rev
    · simp only [Bool.false_eq_true, if_false, one_mul]
      generalize ((radio_in - radio_min) * (angle_max - angle_min)).tdiv
        (radio_max - radio_min) = q at hq1 hq2 ⊢
      generalize (radio_in - radio_min) * (angle_max - angle_min) = p at habs hp1 hp2 hq1 hq2 ⊢
      unfold IsInt16 at *; unfold IsInt32
      refine ⟨?_, ?_, ?_, ?_, ?_, ?_, ?_⟩ <;> omega
    · simp only [if_true, neg_mul, one_mul, Int.neg_tdiv]
      generalize ((radio_in - radio_min) * (angle_max - angle_min)).tdiv
        (radio_max - radio_min) = q at hq1 hq2 ⊢
      generalize (radio_in - radio_min) * (angle_max - angle_min) = p at habs hp1 hp2 hq1 hq2 ⊢
      unfold IsInt16 at *; unfold IsInt32
      refine ⟨?_, ?_, ?_, ?_, ?_, ?_, ?_⟩ <;> omega
  exact angle_input_eq_of_noOverflow _ _ _ hne hno

/-- C19 (amended), at ordinary pulse widths and the widest limits. -/
theorem angle_input_product_fits_witness :
    IsInt32 ((1900 - 1100) * (17999 - -18000)) ∧
    angle_input ⟨1900, 1100, 1901, true⟩ (-18000) 17999 =
      some (Int.tdiv ((if true then -1 else 1) * (1900 - 1100) * (17999 - -18000))
        (1901 - 1100) + (if true then 17999 else -18000)) :=
  angle_input_product_fits ⟨1900, 1100, 1901, true⟩ (-18000) 17999 (by decide) (by decide)
    (by decide) (by decide) (by decide) (by decide) (by decide)

/-- C20: for a channel with `radio_min < radio_max` and limits
`angle_min ≤ angle_max`, without 32-bit overflow at either input, `angle_input`
is monotone in the raw input: non-decreasing with `reverse = false` and
non-increasing with `reverse = true`. -/
theorem angle_input_monotone (raw1 raw2 radio_min radio_max angle_min angle_max : Int)
    (rev : Bool) (hcal : radio_min < radio_max) (hlim : angle_min ≤ angle_max)
    (hraw : raw1 ≤ raw2)
    (h1 : NoOverflow32 ⟨raw1, radio_min, radio_max, rev⟩ angle_min angle_max)
    (h2 : NoOverflow32 ⟨raw2, radio_min, radio_max, rev⟩ angle_min angle_max) :
    ∃ a1 a2,
      angle_input ⟨raw1, radio_min, radio_max, rev⟩ angle_min angle_max = some a1 ∧
      angle_input ⟨raw2, radio_min, radio_max, rev⟩ angle_min angle_max = some a2 ∧
      (rev = false → a1 ≤ a2) ∧ (rev = true → a2 ≤ a1) := by
  have hne : radio_max ≠ radio_min := ne_of_gt hcal
  have hD : 0 < radio_max - radio_min := by omega
  have hS : 0 ≤ angle_max - angle_min := by omega
  have hp : (raw1 - radio_min) * (angle_max - angle_min)
      ≤ (raw2 - radio_min) * (angle_max - angle_min) :=
    mul_le_mul_of_nonneg_right (by omega) hS
  have hq := tdiv_le_tdiv_of_le hD hp
  refine ⟨_, _, angle_input_eq_of_noOverflow _ _ _ hne h1,
    angle_input_eq_of_noOverflow _ _ _ hne h2, ?_, ?_⟩
  · intro hrev
    subst hrev
    simp only [Bool.false_eq_true, if_false, one_mul]
    omega
  · intro hrev
    subst hrev
    simp only [if_true, neg_mul, one_mul, Int.neg_tdiv]
    omega

/-- C20, for a reversed channel at two inputs below and above the calibrated
range. -/
theorem angle_input_monotone_witness :
    ∃ a1 a2,
      angle_input ⟨1000, 1100, 1901, true⟩ (-4500) 4500 = some a1 ∧
      angle_input ⟨2000, 1100, 1901, true⟩ (-4500) 4500 = some a2 ∧
      (true = false → a1 ≤ a2) ∧ (true = true → a2 ≤ a1) :=
  angle_input_monotone 1000 2000 1100 1901 (-4500) 4500 true (by decide) (by decide)
    (by decide) (by decide) (by decide)

/-! ## The tracking angle over the real numbers -/

/-- The clamp keeps a value within its bounds. -/
theorem constrain_float_bounds (v lo hi : ℝ) (h : lo ≤ hi) :
    lo ≤ constrain_float v lo hi ∧ constrain_float v lo hi ≤ hi := by
  unfold constrain_float
  split_ifs with h1 h2
  · exact ⟨le_refl _, h⟩
  · exact ⟨h, le_refl _⟩
  · exact ⟨not_lt.mp h1, not_lt.mp h2⟩

/-- The clamp leaves a value within the bounds as it is. -/
theorem constrain_float_of_mem (v lo hi : ℝ) (h1 : lo ≤ v) (h2 : v ≤ hi) :
    constrain_float v lo hi = v := by
  unfold constrain_float
  rw [if_neg (not_lt.mpr h1), if_neg (not_lt.mpr h2)]

/-- For a positive horizontal distance and a positive height difference the
angle computed by `calc_gimbal_ROI` lies strictly between 0 and 9000
centidegrees. -/
theorem calc_gimbal_ROI_angle_bounds (position roi_WP : Vector3f ℝ)
    (hd : 0 < horizontal_distance position roi_WP)
    (hz : 0 < position.z - roi_WP.z) :
    0 < calc_gimbal_ROI_angle position roi_WP ∧
    calc_gimbal_ROI_angle position roi_WP < 9000 := by
  unfold horizontal_distance at hd
  unfold calc_gimbal_ROI_angle safe_sqrt
  simp only []
  generalize Real.sqrt ((position.x - roi_WP.x) * (position.x - roi_WP.x)
    + (position.y - roi_WP.y) * (position.y - roi_WP.y)) = d at hd ⊢
  generalize position.z - roi_WP.z = dz at hz ⊢
  have ha : fast_atan2 d dz = Real.arctan (d / dz) := by
    unfold fast_atan2; rw [if_pos hz]
  have ha0 : 0 < Real.arctan (d / dz) := by
    rw [← Real.arctan_zero]; exact Real.arctan_strictMono (div_pos hd hz)
  have ha1 := Real.arctan_lt_pi_div_two (d / dz)
  have hpi3 := Real.pi_gt_three
  have hpi := Real.pi_lt_d6
  rw [ha]
  generalize Real.arctan (d / dz) = a at ha0 ha1 ⊢
  have hc : 0 < constrain_float a 0.01 1.571 ∧ constrain_float a 0.01 1.571 < Real.pi / 2 := by
    unfold constrain_float
    split_ifs with h1 h2
    · exact ⟨by norm_num, by linarith⟩
    · exact absurd h2 (by linarith)
    · exact ⟨ha0, ha1⟩
  generalize constrain_float a 0.01 1.571 = c at hc ⊢
  unfold RadiansToCentiDegrees
  constructor
  · apply div_pos _ Real.pi_pos
    linarith [hc.1]
  · rw [div_lt_iff₀ Real.pi_pos]
    linarith [hc.2]

/-- The truncation of a non-negative value below 9000 lies in `[0, 9000]`. -/
theorem float_to_int_bounds (v : ℝ) (h0 : 0 ≤ v) (h1 : v ≤ 9000) :
    0 ≤ float_to_int v ∧ float_to_int v ≤ 9000 := by
  unfold float_to_int
  rw [if_pos h0]
  constructor
  · exact Int.floor_nonneg.mpr h0
  · have h2 : ((⌊v⌋ : Int) : ℝ) ≤ 9000 := le_trans (Int.floor_le v) h1
    exact_mod_cast h2

/-- C14: over the real numbers, for every vehicle position and target point
with horizontal distance greater than 0 and height difference `Δz > 0`, the
angle that `calc_gimbal_ROI` computes (the arc tangent clamped to
`[0.01, 1.571]` and converted to centidegrees) lies strictly between 0 and 9000,
and the tilt angle that it stores lies in `[0, 9000]`. -/
theorem calc_gimbal_ROI_tilt_range (env : Env ℝ) (g : Gimbal ℝ)
    (hd : 0 < horizontal_distance env.position g._roi_WP)
    (hz : 0 < env.position.z - g._roi_WP.z) :
    0 ≤ (calc_gimbal_ROI real_geometry env g)._tilt_angle ∧
    (calc_gimbal_ROI real_geometry env g)._tilt_angle ≤ 9000 ∧
    0 < calc_gimbal_ROI_angle env.position g._roi_WP ∧
    calc_gimbal_ROI_angle env.position g._roi_WP < 9000 := by
  obtain ⟨h0, h1⟩ := calc_gimbal_ROI_angle_bounds env.position g._roi_WP hd hz
  obtain ⟨hi0, hi1⟩ := float_to_int_bounds _ h0.le h1.le
  exact ⟨hi0, hi1, h0, h1⟩

/-- C14, for the vehicle at `(3, 4, 10)` and the target at the origin. -/
theorem calc_gimbal_ROI_tilt_range_witness :
    0 ≤ (calc_gimbal_ROI real_geometry ⟨fun _ => none, 3, ⟨3, 4, 10⟩, 1, 0⟩
          (AC_Gimbal 8000 ⟨0, 0, 0⟩))._tilt_angle ∧
    (calc_gimbal_ROI real_geometry ⟨fun _ => none, 3, ⟨3, 4, 10⟩, 1, 0⟩
          (AC_Gimbal 8000 ⟨0, 0, 0⟩))._tilt_angle ≤ 9000 :=
  have h := calc_gimbal_ROI_tilt_range ⟨fun _ => none, 3, ⟨3, 4, 10⟩, 1, 0⟩
    (AC_Gimbal 8000 ⟨0, 0, 0⟩)
    (by
      unfold horizontal_distance
      apply Real.sqrt_pos.mpr
      simp only [AC_Gimbal]
      norm_num)
    (by simp only [AC_Gimbal]; norm_num)
  ⟨h.1, h.2.1⟩

/-- C17 (the code at the failing input): over the real numbers, for the vehicle
at the origin and the target point `(0, 0, 100)` (height difference `-100`), the
arc tangent is `π`, the clamp yields `1.571` radians, which is more than
`π / 2`, and `calc_gimbal_ROI` stores 9001 centidegrees. -/
theorem calc_gimbal_ROI_stores_9001 :
    calc_gimbal_ROI_angle ⟨0, 0, 0⟩ ⟨0, 0, 100⟩ = 1.571 * 100 * 180 / Real.pi ∧
    9000 < calc_gimbal_ROI_angle ⟨0, 0, 0⟩ ⟨0, 0, 100⟩ ∧
    (calc_gimbal_ROI real_geometry ⟨fun _ => none, 3, ⟨0, 0, 0⟩, 1, 0⟩
      ⟨0, -4500, 4500, MAV_MOUNT_MODE_GPS_POINT, 0, ⟨0, 0, 100⟩⟩)._tilt_angle = 9001 := by
  have hpi1 := Real.pi_gt_d6
  have hpi2 := Real.pi_lt_d6
  have hval : calc_gimbal_ROI_angle ⟨0, 0, 0⟩ ⟨0, 0, 100⟩ = 1.571 * 100 * 180 / Real.pi := by
    unfold calc_gimbal_ROI_angle safe_sqrt
    simp only [sub_self, mul_zero, add_zero, Real.sqrt_zero]
    have hat : fast_atan2 0 (0 - 100) = Real.pi := by
      unfold fast_atan2
      rw [if_neg (by norm_num), if_pos (by norm_num), if_pos (le_refl _)]
      simp
    rw [hat]
    have hcl : constrain_float Real.pi 0.01 1.571 = 1.571 := by
      unfold constrain_float
      rw [if_neg (by linarith), if_pos (by linarith)]
    rw [hcl]
    rfl
  have hgt : (9001 : ℝ) ≤ 1.571 * 100 * 180 / Real.pi := by
    rw [le_div_iff₀ Real.pi_pos]; linarith
  have hlt : 1.571 * 100 * 180 / Real.pi < 9001 + 1 := by
    rw [div_lt_iff₀ Real.pi_pos]; linarith
  refine ⟨hval, ?_, ?_⟩
  · rw [hval]; linarith
  · show float_to_int (calc_gimbal_ROI_angle ⟨0, 0, 0⟩ ⟨0, 0, 100⟩) = 9001
    rw [hval]
    unfold float_to_int
    rw [if_pos (by linarith)]
    rw [Int.floor_eq_iff]
    exact ⟨by exact_mod_cast hgt, by exact_mod_cast hlt⟩

/-! ## The round trip between target point and tilt angle -/

/-- The tracking angle toward `roundtrip_target`, seen from `roundtrip_env`, is
`arctan 1.2` radians: between 4500 and 7200 centidegrees. -/
theorem roundtrip_tilt_bounds :
    4500 ≤ float_to_int (calc_gimbal_ROI_angle roundtrip_env.position roundtrip_target) ∧
    float_to_int (calc_gimbal_ROI_angle roundtrip_env.position roundtrip_target) ≤ 7200 := by
  have hpi1 := Real.pi_gt_three
  have hpi2 := Real.pi_lt_d6
  have hsqrt : Real.sqrt ((0 - 120) * (0 - 120) + (0 - 0) * (0 - 0)) = (120 : ℝ) := by
    rw [show ((0 : ℝ) - 120) * (0 - 120) + (0 - 0) * (0 - 0) = 120 ^ 2 by norm_num]
    exact Real.sqrt_sq (by norm_num)
  have hat : fast_atan2 120 (100 - 0) = Real.arctan (120 / (100 - 0)) := by
    unfold fast_atan2; rw [if_pos (by norm_num)]
  have ha0 : Real.pi / 4 < Real.arctan (120 / (100 - 0)) := by
    rw [← Real.arctan_one]; exact Real.arctan_strictMono (by norm_num)
  have ha1 : Real.arctan (120 / (100 - 0)) < 120 / (100 - 0) := by
    have h := Real.lt_tan (x := Real.arctan (120 / (100 - 0))) (by linarith)
      (Real.arctan_lt_pi_div_two _)
    rwa [Real.tan_arctan] at h
  have hval : calc_gimbal_ROI_angle roundtrip_env.position roundtrip_target
      = Real.arctan (120 / (100 - 0)) * 100 * 180 / Real.pi := by
    unfold calc_gimbal_ROI_angle safe_sqrt roundtrip_env roundtrip_target
    simp only []
    rw [hsqrt, hat, constrain_float_of_mem _ _ _ (by linarith) (by norm_num at ha1 ⊢; linarith)]
    rfl
  rw [hval]
  generalize Real.arctan (120 / (100 - 0)) = a at ha0 ha1
  norm_num at ha1
  have hv0 : (4500 : ℝ) ≤ a * 100 * 180 / Real.pi := by
    rw [le_div_iff₀ Real.pi_pos]; linarith
  have hv1 : a * 100 * 180 / Real.pi < 7200 := by
    rw [div_lt_iff₀ Real.pi_pos]; linarith
  unfold float_to_int
  rw [if_pos (by linarith)]
  constructor
  · exact Int.le_floor.mpr (by exact_mod_cast hv0)
  · have h := lt_of_le_of_lt (Int.floor_le (a * 100 * 180 / Real.pi)) hv1
    have h2 : (⌊a * 100 * 180 / Real.pi⌋ : ℝ) ≤ 7200 := h.le
    exact_mod_cast h2

/-- For a tilt angle between 4500 and 8000 centidegrees and a positive height,
the distance computed by `get_ROI_from_gimbal` is positive and smaller than the
height. -/
theorem projection_distance_lt_height (tilt_angle : Int) (z : ℝ)
    (h1 : 4500 ≤ tilt_angle) (h2 : tilt_angle ≤ 8000) (hz : 0 < z) :
    0 < real_projection.distance tilt_angle z ∧
    real_projection.distance tilt_angle z < z := by
  have hpi1 := Real.pi_gt_three
  have hpi2 := Real.pi_lt_d6
  have hT1 : (4500 : ℝ) ≤ (tilt_angle : ℝ) := by exact_mod_cast h1
  have hT2 : (tilt_angle : ℝ) ≤ 8000 := by exact_mod_cast h2
  show 0 < 1 / Real.tan (constrain_float (tilt_angle : ℝ) 500 8000 * 0.000174533) * z ∧
    1 / Real.tan (constrain_float (tilt_angle : ℝ) 500 8000 * 0.000174533) * z < z
  rw [constrain_float_of_mem _ _ _ (by linarith) hT2]
  have hlo : Real.pi / 4 < (tilt_angle : ℝ) * 0.000174533 := by linarith
  have hhi : (tilt_angle : ℝ) * 0.000174533 < Real.pi / 2 := by linarith
  have htan : 1 < Real.tan ((tilt_angle : ℝ) * 0.000174533) := by
    rw [← Real.tan_pi_div_four]
    exact Real.tan_lt_tan_of_lt_of_lt_pi_div_two (by linarith) hhi hlo
  generalize Real.tan ((tilt_angle : ℝ) * 0.000174533) = t at htan
  have ht0 : 0 < t := by linarith
  have hinv : 1 / t < 1 := by rw [div_lt_iff₀ ht0]; linarith
  have hinv0 : 0 < 1 / t := by positivity
  constructor
  · positivity
  · calc 1 / t * z < 1 * z := mul_lt_mul_of_pos_right hinv hz
      _ = z := one_mul z

/-- The target point stored by `set_ROI`. -/
theorem set_ROI_roi_WP {F : Type} (g : Gimbal F) (p : Vector3f F) :
    (set_ROI g p)._roi_WP = p := by
  unfold set_ROI set_mode
  by_cases h : wrap8 MAV_MOUNT_MODE_GPS_POINT = MAV_MOUNT_MODE_GPS_POINT <;> simp [h]

/-- C13 (the code at the failing input): over the real numbers, for the vehicle
at `(0, 0, 100)` heading along the first axis and the ground target
`(120, 0, 0)`, the tracking angle lies in `[500, 8000]` centidegrees and the
target is at the horizontal distance 120, but the point derived back from the
tilt angle is at a horizontal distance below 100. -/
theorem roundtrip_distance_differs :
    500 ≤ (calc_gimbal_ROI real_geometry roundtrip_env
      (set_ROI (AC_Gimbal 0 ⟨0, 0, 0⟩) roundtrip_target))._tilt_angle ∧
    (calc_gimbal_ROI real_geometry roundtrip_env
      (set_ROI (AC_Gimbal 0 ⟨0, 0, 0⟩) roundtrip_target))._tilt_angle ≤ 8000 ∧
    horizontal_distance roundtrip_env.position roundtrip_target = 120 ∧
    horizontal_distance roundtrip_env.position
      (roundtrip roundtrip_env (AC_Gimbal 0 ⟨0, 0, 0⟩) roundtrip_target) < 100 := by
  obtain ⟨hT1, hT2⟩ := roundtrip_tilt_bounds
  have htilt : (calc_gimbal_ROI real_geometry roundtrip_env
      (set_ROI (AC_Gimbal 0 ⟨0, 0, 0⟩) roundtrip_target))._tilt_angle
      = float_to_int (calc_gimbal_ROI_angle roundtrip_env.position roundtrip_target) := by
    show float_to_int (calc_gimbal_ROI_angle roundtrip_env.position
      (set_ROI (AC_Gimbal 0 ⟨0, 0, 0⟩) roundtrip_target)._roi_WP) = _
    rw [set_ROI_roi_WP]
  refine ⟨by rw [htilt]; omega, by rw [htilt]; omega, ?_, ?_⟩
  · unfold horizontal_distance roundtrip_env roundtrip_target
    simp only []
    rw [show ((0 : ℝ) - 120) * (0 - 120) + (0 - 0) * (0 - 0) = 120 ^ 2 by norm_num]
    exact Real.sqrt_sq (by norm_num)
  · obtain ⟨hd0, hd1⟩ := projection_distance_lt_height
      (float_to_int (calc_gimbal_ROI_angle roundtrip_env.position roundtrip_target))
      100 hT1 (by omega) (by norm_num)
    have hroi : roundtrip roundtrip_env (AC_Gimbal 0 ⟨0, 0, 0⟩) roundtrip_target
        = ⟨0 + 1 * real_projection.distance
              (float_to_int (calc_gimbal_ROI_angle roundtrip_env.position roundtrip_target))
              100,
           0 + 0 * real_projection.distance
              (float_to_int (calc_gimbal_ROI_angle roundtrip_env.position roundtrip_target))
              100,
           0⟩ := by
      unfold roundtrip get_ROI_from_gimbal
      simp only [htilt]
      rfl
    rw [hroi]
    generalize real_projection.distance
      (float_to_int (calc_gimbal_ROI_angle roundtrip_env.position roundtrip_target)) 100
      = dist at hd0 hd1
    unfold horizontal_distance roundtrip_env
    simp only []
    rw [show ((0 : ℝ) - (0 + 1 * dist)) * (0 - (0 + 1 * dist))
        + (0 - (0 + 0 * dist)) * (0 - (0 + 0 * dist)) = dist ^ 2 by ring]
    rw [Real.sqrt_sq hd0.le]
    exact hd1

end AC_Gimbal
